import Mathlib

set_option maxHeartbeats 1000000
set_option maxRecDepth 10000

/-!
Shallow embedding of the feedbot-next repository core:
the error-normalization/fingerprinting pipeline
(`src/assignmentGroupErrors.ts`, `src/assignmentExtract.ts`,
`src/assignmentCategories.ts`, `src/extractBuildErrors.ts`)
and the resumable concurrent job processor
(`scripts/classes/FeedBotProcessor.ts`, `scripts/classes/PromptGenerator.ts`,
`scripts/classes/ModelManager.ts`).

Text is modelled as `List Char` (a JS string's code points).  JavaScript
regular expressions used by the source are translated rule-by-rule into
executable Lean scanners; each scanner carries the original regex in a
comment.  The ASCII fragment of the JS character classes `\s`, `\d`, `\w`
is modelled (the repository's inputs and every pattern are ASCII).
-/

namespace Feedbot

/-- Character class for the JS regex `\s` (ASCII fragment). -/
def isWS (c : Char) : Bool :=
  c = ' ' || c = '\t' || c = '\n' || c = '\r' || c = '\x0b' || c = '\x0c'

/-- Character class for the JS regex `\d`. -/
def isDigitCh (c : Char) : Bool := '0' ≤ c && c ≤ '9'

/-- Character class for the JS regex `\w`. -/
def isWordCh (c : Char) : Bool :=
  isDigitCh c || ('a' ≤ c && c ≤ 'z') || ('A' ≤ c && c ≤ 'Z') || c = '_'

/-- ASCII lower-casing, the fragment of the JS `i` flag our patterns use. -/
def lowc (c : Char) : Char := c.toLower

/-- Tests whether `p` is a prefix of `s` up to ASCII case. -/
def isPrefixOfCI : List Char → List Char → Bool
  | [], _ => true
  | _ :: _, [] => false
  | p :: ps, c :: cs => (lowc p == lowc c) && isPrefixOfCI ps cs

/-- Case-insensitive substring containment: JS `/literal/i.test(s)`. -/
def containsCI (pat : List Char) : List Char → Bool
  | [] => isPrefixOfCI pat []
  | c :: cs => isPrefixOfCI pat (c :: cs) || containsCI pat cs

/-- Case-sensitive prefix test. -/
def isPrefixOfCS : List Char → List Char → Bool
  | [], _ => true
  | _ :: _, [] => false
  | p :: ps, c :: cs => (p == c) && isPrefixOfCS ps cs

/-- Case-sensitive substring containment: JS `String.prototype.includes`. -/
def containsCS (pat : List Char) : List Char → Bool
  | [] => isPrefixOfCS pat []
  | c :: cs => isPrefixOfCS pat (c :: cs) || containsCS pat cs

/-!  A small nondeterministic matcher algebra.  A `Matcher` consumes a
prefix of the input and returns the list of possible remainders; a JS
`regex.test` call is modelled as: some starting suffix admits a nonempty
remainder list.  Repetition is confined to character classes, so every
combinator is structurally terminating. -/

/-- Matchers consume a prefix; the result lists every possible remainder. -/
def Matcher := List Char → List (List Char)

/-- Matches the empty string. -/
def mEps : Matcher := fun s => [s]

/-- Case-insensitive literal. -/
def mLitCI (pat : String) : Matcher := fun s =>
  if isPrefixOfCI pat.data s then [s.drop pat.data.length] else []

/-- Case-sensitive literal. -/
def mLitCS (pat : String) : Matcher := fun s =>
  if isPrefixOfCS pat.data s then [s.drop pat.data.length] else []

/-- Matches one character of a class. -/
def mCls (p : Char → Bool) : Matcher := fun s =>
  match s with
  | [] => []
  | c :: cs => if p c then [cs] else []

/-- Sequencing of matchers. -/
def mSeq (a b : Matcher) : Matcher := fun s => (a s).flatMap b

/-- Alternation of matchers. -/
def mAlt (a b : Matcher) : Matcher := fun s => a s ++ b s

/-- Sequencing of a list of matchers. -/
def mSeqs : List Matcher → Matcher
  | [] => mEps
  | m :: ms => mSeq m (mSeqs ms)

/-- Class repetition `p*`: remainders after consuming 0, 1, 2, … class chars. -/
def mStarCls (p : Char → Bool) : Matcher := fun s =>
  match s with
  | [] => [[]]
  | c :: cs => (c :: cs) :: (if p c then mStarCls p cs else [])

/-- Class repetition `p+`. -/
def mPlusCls (p : Char → Bool) : Matcher := mSeq (mCls p) (mStarCls p)

/-- Bounded class repetition `p{0,hi}`. -/
def mRepUpTo (p : Char → Bool) : Nat → Matcher
  | 0 => mEps
  | hi + 1 => fun s =>
    s :: (match s with
          | [] => []
          | c :: cs => if p c then mRepUpTo p hi cs else [])

/-- Optional matcher `a?`. -/
def mOpt (a : Matcher) : Matcher := fun s => a s ++ [s]

/-- Zero-width negative lookahead `(?!a)`. -/
def mNotAhead (a : Matcher) : Matcher := fun s =>
  if (a s).isEmpty then [s] else []

/-- Zero-width word-boundary test on the right: next char is not `\w`. -/
def mEndWB : Matcher := mNotAhead (mCls isWordCh)

/-- Holds when the matcher admits a match starting at some position. -/
def searchM (m : Matcher) : List Char → Bool
  | [] => !(m []).isEmpty
  | c :: cs => !(m (c :: cs)).isEmpty || searchM m cs

/-- Search where the match start must sit on a `\b` word boundary:
the previous character (if any) is not a word character. -/
def searchWB (m : Matcher) (prevWord : Bool) : List Char → Bool
  | [] => !prevWord && !(m []).isEmpty
  | c :: cs =>
    (!prevWord && !(m (c :: cs)).isEmpty) || searchWB m (isWordCh c) cs

/-!  `scripts/classes/PromptGenerator.ts`: the `EvaluationRow` shape read
from the grouped-errors CSV, and `getSkipReason` with its pattern set. -/

/-- One row of the grouped-errors CSV (`EvaluationRow` in
`PromptGenerator.ts`); every CSV field is a string. -/
structure EvaluationRow where
  category : String
  test_name : String
  error_type : String
  count : String
  fingerprint : String
  canonical_key : String
  clean_error_text : String
  deriving DecidableEq, Repr

/-- Regex `/This unit was not graded because the following dependencies were not satisfied/i`. -/
def dependencyNotGradedTest (s : List Char) : Bool :=
  containsCI "This unit was not graded because the following dependencies were not satisfied".data s

/-- Regex `/Please meet the required score thresholds shown above before this unit will be graded/i`. -/
def scoreThresholdTest (s : List Char) : Bool :=
  containsCI "Please meet the required score thresholds shown above before this unit will be graded".data s

/-- Regex `/Faults detected:\s*0\s*\/\s*5/i`. -/
def faultsZeroOfFiveTest (s : List Char) : Bool :=
  searchM (mSeqs [mLitCI "Faults detected:", mStarCls isWS, mLitCI "0",
                  mStarCls isWS, mLitCI "/", mStarCls isWS, mLitCI "5"]) s

/-- Regex `/\d+\s+additional hints available but not shown\.[\s\S]*You are limited to 1 hint total/i`. -/
def hiddenHintsLimitTest (s : List Char) : Bool :=
  searchM (mSeqs [mPlusCls isDigitCh, mPlusCls isWS,
                  mLitCI "additional hints available but not shown.",
                  mStarCls (fun _ => true),
                  mLitCI "You are limited to 1 hint total"]) s

/-- Separator class `[_\s-]` used by the instructor-category pattern. -/
def isSepCh (c : Char) : Bool := c = '_' || isWS c || c = '-'

/-- Regex `/instructor[_\s-]?test[_\s-]?failure/i`. -/
def instructorCategoryTest (s : List Char) : Bool :=
  searchM (mSeqs [mLitCI "instructor", mOpt (mCls isSepCh),
                  mLitCI "test", mOpt (mCls isSepCh), mLitCI "failure"]) s

/-- The three `INSTRUCTOR_NO_DETAIL_SIGNALS` regexes:
`/additional failing tests not shown/i`, `/hints?\s+available\s+but\s+not\s+shown/i`,
`/tests passed:\s*\d+\s*\/\s*\d+/i`. -/
def instructorNoDetailTest (s : List Char) : Bool :=
  containsCI "additional failing tests not shown".data s ||
  searchM (mSeqs [mLitCI "hint", mOpt (mLitCI "s"), mPlusCls isWS,
                  mLitCI "available", mPlusCls isWS, mLitCI "but",
                  mPlusCls isWS, mLitCI "not", mPlusCls isWS, mLitCI "shown"]) s ||
  searchM (mSeqs [mLitCI "tests passed:", mStarCls isWS, mPlusCls isDigitCh,
                  mStarCls isWS, mLitCI "/", mStarCls isWS, mPlusCls isDigitCh]) s

/-- Character class `[\w.$]` of the stack-frame pattern. -/
def isFrameCh (c : Char) : Bool := isWordCh c || c = '.' || c = '$'

/-- The `INSTRUCTOR_ACTIONABLE_DETAIL_SIGNALS` regexes:
`/org\.opentest4j\.AssertionFailedError/i`, `/AssertionFailedError/i`,
`/expected:\s*</i`, `/but was:\s*</i`, `/\bat\s+app\/\//i`,
`/\bat\s+[\w.$]+\([^)]*:\d+\)/i`, and
`/\b(?:NullPointerException|IllegalArgumentException|RuntimeException|Exception)\b/i`. -/
def instructorActionableDetailTest (s : List Char) : Bool :=
  containsCI "org.opentest4j.AssertionFailedError".data s ||
  containsCI "AssertionFailedError".data s ||
  searchM (mSeqs [mLitCI "expected:", mStarCls isWS, mLitCI "<"]) s ||
  searchM (mSeqs [mLitCI "but was:", mStarCls isWS, mLitCI "<"]) s ||
  searchWB (mSeqs [mLitCI "at", mPlusCls isWS, mLitCI "app//"]) false s ||
  searchWB (mSeqs [mLitCI "at", mPlusCls isWS, mPlusCls isFrameCh, mLitCI "(",
                   mStarCls (fun c => c ≠ ')'), mLitCI ":",
                   mPlusCls isDigitCh, mLitCI ")"]) false s ||
  searchWB (mSeq (mAlt (mLitCI "NullPointerException")
                  (mAlt (mLitCI "IllegalArgumentException")
                   (mAlt (mLitCI "RuntimeException") (mLitCI "Exception"))))
            mEndWB) false s

/-- The combined `${row.category}\n${row.error_type}\n${row.canonical_key}\n${text}`
string inspected by `getSkipReason`. -/
def combinedText (row : EvaluationRow) : List Char :=
  row.category.data ++ '\n' :: row.error_type.data ++ '\n' ::
  row.canonical_key.data ++ '\n' :: row.clean_error_text.data

/-- `PromptGenerator.shouldSkipInstructorNoDetail`. -/
def shouldSkipInstructorNoDetail (row : EvaluationRow) (combined : List Char) : Bool :=
  let isInstructorRelated :=
    row.error_type = "INSTRUCTOR_TEST_FAILURE" || instructorCategoryTest combined
  if !isInstructorRelated then false
  else if instructorActionableDetailTest combined then false
  else instructorNoDetailTest combined

/-- `PromptGenerator.getSkipReason`: the composable skip predicate, returning
the first firing check's reason or `none`. -/
def getSkipReason (row : EvaluationRow) : Option String :=
  let combined := combinedText row
  if row.error_type = "DEPENDENCY_NOT_MET" then
    some "DEPENDENCY_NOT_MET category"
  else if dependencyNotGradedTest combined then
    some "Dependency gating system message"
  else if scoreThresholdTest combined then
    some "Score-threshold gating system message"
  else if faultsZeroOfFiveTest combined && hiddenHintsLimitTest combined then
    some "Mutation 0/5 with hidden hints"
  else if shouldSkipInstructorNoDetail row combined then
    some "Instructor failure without actionable detail"
  else
    none

/-!  `scripts/classes/FeedBotProcessor.ts`: per-combination processing
state, retry with backoff, and the single-row procedure.  JS exceptions
are modelled with `Except`; a thrown value carries the optional numeric
`status` field and the `message` string that `retryWithBackoff` inspects.
Sleeps and log lines are pure observability and are not modelled. -/

/-- A thrown JS error as inspected by `retryWithBackoff`:
`error?.status` and `error?.message`. -/
structure JsError where
  status : Option Nat
  message : String
  deriving DecidableEq, Repr

/-- Usage metadata attached to a processing result
(`providerTypes.ts`).  `costUSD` is kept as its decimal rendering;
no arithmetic is ever performed on it in the modelled code paths. -/
structure UsageMetadata where
  promptTokens : Option Nat := none
  completionTokens : Option Nat := none
  totalTokens : Option Nat := none
  costUSD : Option String := none
  deriving DecidableEq, Repr

/-- `ModelManager.processRow`'s successful result shape. -/
structure ProcessingResult where
  hint : String
  timestamp : String
  usage : Option UsageMetadata := none
  deriving DecidableEq, Repr

/-- One entry of the persisted state file (`StateFile.processed[fp]`). -/
structure StateEntry where
  hint : String
  timestamp : String
  usage : Option UsageMetadata := none
  deriving DecidableEq, Repr

/-- The `processed` map of a combination's state file, as a JS object:
an insertion-ordered association list with unique keys. -/
abbrev StateFile := List (String × StateEntry)

/-- JS object read `state.processed[fp]`: first (only) binding of the key. -/
def objGet (l : StateFile) (k : String) : Option StateEntry :=
  match l with
  | [] => none
  | (k', v) :: rest => if k' = k then some v else objGet rest k

/-- JS object write `state.processed[fp] = entry`: overwrite in place if
the key exists, otherwise append the new binding. -/
def objSet (l : StateFile) (k : String) (v : StateEntry) : StateFile :=
  match l with
  | [] => [(k, v)]
  | (k', v') :: rest =>
    if k' = k then (k, v) :: rest else (k', v') :: objSet rest k v

/-- `FeedBotProcessor.isAlreadyProcessed`: `!!state.processed[row.fingerprint]`. -/
def isAlreadyProcessed (row : EvaluationRow) (state : StateFile) : Bool :=
  (objGet state row.fingerprint).isSome

/-- The rate-limit test of `retryWithBackoff`:
`error?.status === 429 || error?.message?.includes("429")`. -/
def isRateLimitError (e : JsError) : Bool :=
  e.status == some 429 || containsCS "429".data e.message.data

/-- A provider behaviour for one row: the outcome of the `attempt`-th
invocation of the wrapped operation (0-based). -/
def Provider := Nat → Except JsError ProcessingResult

/-- The loop body of `FeedBotProcessor.retryWithBackoff`, recursing on the
remaining retry budget `maxRetries - attempt`.  Returns the final outcome
together with the number of operation invocations made.  When the budget
is exhausted the error is rethrown whether or not it is rate-limit class,
exactly as in the source (`attempt === maxRetries` gives up; a
non-rate-limit error rethrows immediately). -/
def retryAux (op : Provider) (attempt : Nat) : Nat → Except JsError ProcessingResult × Nat
  | 0 =>
    (op attempt, 1)
  | remaining + 1 =>
    match op attempt with
    | .ok r => (.ok r, 1)
    | .error e =>
      if isRateLimitError e then
        let (res, n) := retryAux op (attempt + 1) remaining
        (res, n + 1)
      else
        (.error e, 1)

/-- `FeedBotProcessor.retryWithBackoff` with its default `maxRetries = 3`
(backoff sleeps elided: they do not affect outcomes or call counts). -/
def retryWithBackoff (op : Provider) (maxRetries : Nat := 3) :
    Except JsError ProcessingResult × Nat :=
  retryAux op 0 maxRetries

/-- Terminal per-row outcome, mirroring which `ResultsAggregator` counter
`processSingleRow` bumps. -/
inductive Outcome
  | skipped
  | processed
  | failed
  deriving DecidableEq, Repr

/-- The state entry built from a successful result in `processSingleRow`
(`{ hint, timestamp }` plus `usage` when present). -/
def entryOfResult (r : ProcessingResult) : StateEntry :=
  { hint := r.hint, timestamp := r.timestamp, usage := r.usage }

/-- `FeedBotProcessor.processSingleRow` as a pure transition: given the row,
the provider behaviour for this row, and the in-memory state, returns the
new state, the outcome counted, and the number of provider invocations.
The state is saved to disk immediately after mutation; in this sequential
model the persisted document always equals the returned state. -/
def processSingleRow (row : EvaluationRow) (provider : Provider)
    (state : StateFile) : StateFile × Outcome × Nat :=
  match getSkipReason row with
  | some _ => (state, .skipped, 0)
  | none =>
    if isAlreadyProcessed row state then
      (state, .skipped, 0)
    else
      match retryWithBackoff provider with
      | (.ok r, n) => (objSet state row.fingerprint (entryOfResult r), .processed, n)
      | (.error _, n) => (state, .failed, n)

/-- Aggregated observable effects of processing a list of rows. -/
structure RunStats where
  state : StateFile
  calls : Nat := 0
  processedN : Nat := 0
  skippedN : Nat := 0
  failedN : Nat := 0

/-- One sequential iteration: process a row, fold its effects into the
running stats. -/
def runStep (provider : EvaluationRow → Provider) (acc : RunStats)
    (row : EvaluationRow) : RunStats :=
  let t := processSingleRow row (provider row) acc.state
  { state := t.1
    calls := acc.calls + t.2.2
    processedN := acc.processedN + (if t.2.1 = .processed then 1 else 0)
    skippedN := acc.skippedN + (if t.2.1 = .skipped then 1 else 0)
    failedN := acc.failedN + (if t.2.1 = .failed then 1 else 0) }

/-- Sequentially process rows against a shared state (the semantics of
`processCombination`'s loop at concurrency 1; concurrency is modelled
separately for the lost-write analysis). -/
def runRows (provider : EvaluationRow → Provider)
    (rows : List EvaluationRow) (acc : RunStats) : RunStats :=
  rows.foldl (runStep provider) acc

/-- A run of one combination starting from a given loaded state. -/
def runCombination (provider : EvaluationRow → Provider)
    (rows : List EvaluationRow) (state0 : StateFile) : RunStats :=
  runRows provider rows { state := state0 }

/-!  `FeedBotProcessor.loadState`/`saveState`.  The persisted document is
modelled by whether the file exists and, when it does, whether
`JSON.parse` succeeds on its content (`JSON.parse` throws on malformed
input; the parse outcome of the external builtin is the `Option`). -/

/-- The observable condition of the persisted state document. -/
inductive PersistedDoc
  | missing
  | present (parseResult : Option StateFile)

/-- `FeedBotProcessor.loadState`: return `{ processed: {} }` when the file
does not exist, otherwise `JSON.parse` the content — whose exception, on
malformed content, propagates out of `loadState`. -/
def loadState : PersistedDoc → Except Unit StateFile
  | .missing => .ok []
  | .present none => .error ()
  | .present (some s) => .ok s

/-- `ModelManager.processRow`'s catch-all rewrap: every failure is
rethrown as `new Error("API call failed: " + message)` — a fresh `Error`
object with no numeric `status` field. -/
def wrapProcessRowError (e : JsError) : JsError :=
  { status := none, message := "API call failed: " ++ e.message }

/-!  Cooperative-concurrency model of `runWithConcurrency` +
`processSingleRow`.  The JS event loop interleaves workers only at
`await` points; for a given row the synchronous prefix of
`processSingleRow` (the skip checks, reading the shared state object) and
the synchronous suffix after the provider call resolves (mutating the
shared state object and writing the whole document) are each atomic.  An
execution is therefore a sequence of `start i` / `finish i` events over
row indices; `start` performs the checks against the current shared
state, `finish` applies the retried provider outcome and saves.  All
workers share the single state object loaded by `processCombination`, so
each save writes the object containing every mutation so far. -/

/-- Lifecycle of one row's job inside a concurrent combination run. -/
inductive JobPhase
  | notStarted
  | inFlight
  | done
  deriving DecidableEq, Repr

/-- An event-loop step: a worker begins a row, or a row's provider call
resolves and its completion block runs. -/
inductive Ev
  | start (i : Nat)
  | finish (i : Nat)
  deriving DecidableEq, Repr

/-- Shared execution state: the in-memory state object, the last
document written by `saveState` (initially the loaded empty document),
and each row's phase. -/
structure ExecSt where
  file : StateFile
  persisted : StateFile
  phases : List JobPhase
  deriving DecidableEq, Repr

/-- Executes one event if it is enabled (`start` needs `notStarted`,
`finish` needs `inFlight`); `none` marks a schedule that is not a
possible interleaving. -/
def execEv (rows : List EvaluationRow) (provider : EvaluationRow → Provider)
    (st : ExecSt) : Ev → Option ExecSt
  | .start i =>
    match rows[i]?, st.phases[i]? with
    | some row, some .notStarted =>
      if (getSkipReason row).isSome then
        some { st with phases := st.phases.set i .done }
      else if isAlreadyProcessed row st.file then
        some { st with phases := st.phases.set i .done }
      else
        some { st with phases := st.phases.set i .inFlight }
    | _, _ => none
  | .finish i =>
    match rows[i]?, st.phases[i]? with
    | some row, some .inFlight =>
      match (retryWithBackoff (provider row)).1 with
      | .ok r =>
        let f := objSet st.file row.fingerprint (entryOfResult r)
        some { file := f, persisted := f, phases := st.phases.set i .done }
      | .error _ =>
        some { st with phases := st.phases.set i .done }
    | _, _ => none

/-- Runs a whole schedule of events. -/
def execSched (rows : List EvaluationRow) (provider : EvaluationRow → Provider) :
    List Ev → ExecSt → Option ExecSt
  | [], st => some st
  | ev :: evs, st =>
    match execEv rows provider st ev with
    | some st' => execSched rows provider evs st'
    | none => none

/-- The execution state at the start of a combination run on a fresh
(empty) loaded state. -/
def initExecSt (rows : List EvaluationRow) : ExecSt :=
  { file := [], persisted := [], phases := rows.map (fun _ => .notStarted) }

/-!  Scaffolding for JS `String.replace` with a global regex.  JS collects
matches against the original string left to right (a match never starts
inside an earlier match) and substitutes; we scan the original text once.
A rule receives the previous original character (for `\b`) and the
current suffix, and yields the replacement, the last character of the
matched text, and the remaining original suffix.  Every rule below
matches at least one character, so fuel `s.length` never runs out. -/

/-- A replacement rule: `prev` original char, current suffix ↦
(replacement, last matched char, remaining suffix). -/
def ReplRule := Option Char → List Char → Option (List Char × Char × List Char)

/-- Fueled worker for `replaceAll`. -/
def replaceAllGo (rule : ReplRule) : Nat → Option Char → List Char → List Char
  | _, _, [] => []
  | 0, _, s => s
  | fuel + 1, prev, c :: cs =>
    match rule prev (c :: cs) with
    | some (rep, lastc, rest) => rep ++ replaceAllGo rule fuel (some lastc) rest
    | none => c :: replaceAllGo rule fuel (some c) cs

/-- Global-replace of a rule over a string. -/
def replaceAll (rule : ReplRule) (s : List Char) : List Char :=
  replaceAllGo rule s.length none s

/-- Fueled worker for `replaceFirst` (JS `replace` with a non-global regex). -/
def replaceFirstGo (rule : ReplRule) : Nat → Option Char → List Char → List Char
  | _, _, [] => []
  | 0, _, s => s
  | fuel + 1, prev, c :: cs =>
    match rule prev (c :: cs) with
    | some (rep, _, rest) => rep ++ rest
    | none => c :: replaceFirstGo rule fuel (some c) cs

/-- First-match-only replace of a rule over a string. -/
def replaceFirst (rule : ReplRule) (s : List Char) : List Char :=
  replaceFirstGo rule s.length none s

/-- Takes the maximal prefix satisfying `p` together with the rest. -/
def spanP (p : Char → Bool) : List Char → List Char × List Char
  | [] => ([], [])
  | c :: cs =>
    if p c then
      let (pre, post) := spanP p cs
      (c :: pre, post)
    else
      ([], c :: cs)

/-- Drops a case-insensitive literal prefix, or fails. -/
def dropLitCI (pat : String) (s : List Char) : Option (List Char) :=
  if isPrefixOfCI pat.data s then some (s.drop pat.data.length) else none

/-- Drops a case-sensitive literal prefix, or fails. -/
def dropLitCS (pat : String) (s : List Char) : Option (List Char) :=
  if isPrefixOfCS pat.data s then some (s.drop pat.data.length) else none

/-- Drops `\s*`. -/
def dropWSStar (s : List Char) : List Char := (spanP isWS s).2

/-- Drops `\d+`: at least one digit, greedily. -/
def dropDigits1 (s : List Char) : Option (List Char) :=
  match spanP isDigitCh s with
  | ([], _) => none
  | (_ :: _, rest) => some rest

/-- Drops `\s*\/\s*\d+` (the `/Y` tail of the count patterns). -/
def dropSlashDigits (s : List Char) : Option (List Char) := do
  let s := dropWSStar s
  let s ← dropLitCS "/" s
  let s := dropWSStar s
  dropDigits1 s

/-- JS `String.prototype.trim` (ASCII `\s` fragment). -/
def trimWS (s : List Char) : List Char :=
  ((s.dropWhile isWS).reverse.dropWhile isWS).reverse

/-- Regex `/\s+/g → " "` followed by `trim` — the final whitespace
normalization step shared by several pipeline functions. -/
def collapseWS (s : List Char) : List Char :=
  trimWS (replaceAll
    (fun _ s =>
      match spanP isWS s with
      | ([], _) => none
      | (run, rest) => some ([' '], run.getLastD ' ', rest))
    s)

/-!  `normalizeAssignmentError` (`src/assignmentExtract.ts`): each regex
rewrite becomes one `ReplRule`, applied in the source's order. -/

/-- Shared tail of the two GitHub-runner path rules:
`(?:file:\/\/)?\/home\/runner\/(?:_work|work)\/sp26-cyb1-[^/]+\/sp26-cyb1-[^/]+`.
Returns the rest after the matched prefix. -/
def runnerPrefixMatch (s : List Char) : Option (List Char) := do
  let s := (dropLitCI "file://" s).getD s
  let s ← dropLitCI "/home/runner/" s
  let s ← (dropLitCI "_work" s).orElse (fun _ => dropLitCI "work" s)
  let s ← dropLitCS "/" s
  let s ← dropLitCI "sp26-cyb1-" s
  let (seg1, s) := spanP (fun c => c ≠ '/') s
  if seg1.isEmpty then none else do
  let s ← dropLitCS "/" s
  let s ← dropLitCI "sp26-cyb1-" s
  let (seg2, s) := spanP (fun c => c ≠ '/') s
  if seg2.isEmpty then none else
  some s

/-- Rule for
`/(?:file:\/\/)?\/home\/runner\/(?:_work|work)\/sp26-cyb1-[^/]+\/sp26-cyb1-[^/]+\/(pawtograder|pawtograder-grading)([^\s]*)/gi`
→ `"sp26-cyb1-[REDACTED]/pawtograder$2"`.  The first alternative
`pawtograder` matches whenever the second would, so `$1` is always the
former and `$2` carries any remainder (including `-grading…`). -/
def runnerPathRule1 : ReplRule := fun _ s => do
  let rest ← runnerPrefixMatch s
  let rest ← dropLitCS "/" rest
  let rest ← dropLitCI "pawtograder" rest
  let (tail, rest) := spanP (fun c => !isWS c) rest
  some ("sp26-cyb1-[REDACTED]/pawtograder".data ++ tail,
        tail.getLastD 'r', rest)

/-- Rule for
`/(?:file:\/\/)?\/home\/runner\/(?:_work|work)\/sp26-cyb1-[^/]+\/sp26-cyb1-[^/]+/gi`
→ `"sp26-cyb1-[REDACTED]"`. -/
def runnerPathRule2 : ReplRule := fun _ s => do
  let rest ← runnerPrefixMatch s
  some ("sp26-cyb1-[REDACTED]".data, ' ', rest)

/-- Rule for `/sp26-cyb1-[A-Za-z0-9_-]+/gi` → `"sp26-cyb1-[REDACTED]"`. -/
def runnerPathRule3 : ReplRule := fun _ s => do
  let rest ← dropLitCI "sp26-cyb1-" s
  match spanP (fun c => isWordCh c || c = '-') rest with
  | ([], _) => none
  | (run, rest) => some ("sp26-cyb1-[REDACTED]".data, run.getLastD '-', rest)

/-- Rule for `/expected:<[^>]+>\s+but was:<[^>]+>/gi`
→ `"expected:<EXPECTED> but was:<ACTUAL>"`.  Note the literal single
space inside `but was:` — multiple whitespace between `but` and `was`
defeats this rule (unlike the matcher in `extractNormalizedAssertion`). -/
def expectedActualRule : ReplRule := fun _ s => do
  let rest ← dropLitCI "expected:<" s
  let (e, rest) := spanP (fun c => c ≠ '>') rest
  if e.isEmpty then none else do
  let rest ← dropLitCS ">" rest
  let (ws, rest) := spanP isWS rest
  if ws.isEmpty then none else do
  let rest ← dropLitCI "but was:<" rest
  let (a, rest) := spanP (fun c => c ≠ '>') rest
  if a.isEmpty then none else do
  let rest ← dropLitCS ">" rest
  some ("expected:<EXPECTED> but was:<ACTUAL>".data, '>', rest)

/-- Rule for a `label:\s*\d+` count pattern (e.g. `/Tests run:\s*\d+/gi`)
rewritten to a fixed `replacement`. -/
def countRule (label : String) (replacement : String) : ReplRule := fun _ s => do
  let rest ← dropLitCI label s
  let rest := dropWSStar rest
  let rest ← dropDigits1 rest
  some (replacement.data, replacement.data.getLastD 'X', rest)

/-- Rule for a `label:\s*\d+\s*\/\s*\d+` ratio pattern
(e.g. `/Tests passed:\s*\d+\s*\/\s*\d+/gi`). -/
def ratioRule (label : String) (replacement : String) : ReplRule := fun _ s => do
  let rest ← dropLitCI label s
  let rest := dropWSStar rest
  let rest ← dropDigits1 rest
  let rest ← dropSlashDigits rest
  some (replacement.data, replacement.data.getLastD 'Y', rest)

/-- Rule for `/Mutation testing score:\s*\d+(?:\.\d+)?%/gi`
→ `"Mutation testing score: X%"`. -/
def mutationScoreRule : ReplRule := fun _ s => do
  let rest ← dropLitCI "Mutation testing score:" s
  let rest := dropWSStar rest
  let rest ← dropDigits1 rest
  let rest := (do
      let r ← dropLitCS "." rest
      dropDigits1 r).getD rest
  let rest ← dropLitCS "%" rest
  some ("Mutation testing score: X%".data, '%', rest)

/-- File extensions of the unix-path rule, in the regex's alternation order. -/
def pathExts : List String := ["java", "kt", "txt", "md", "xml"]

/-- Helper of `unixPathRule`: given the non-space run after the leading
`/` and the text after the run, find the largest split `k` of the run such
that `run.drop k` begins with `.` + extension (greedy `[^\s]+`
backtracking), then consume an optional `:digits`.  Returns the remaining
suffix after the whole match. -/
def unixPathSplit (run : List Char) (after : List Char) : Nat → Option (List Char)
  | 0 => none
  | k + 1 =>
    let tail := run.drop (k + 1)
    let hit := do
      let t ← dropLitCS "." tail
      let rec tryExts : List String → Option (List Char)
        | [] => none
        | ext :: exts => (dropLitCI ext t).orElse (fun _ => tryExts exts)
      let t ← tryExts pathExts
      let t := t ++ after
      let t := (do
          let u ← dropLitCS ":" t
          dropDigits1 u).getD t
      some t
    match hit with
    | some rest => some rest
    | none => unixPathSplit run after k

/-- Rule for `/\/[^\s]+\.(?:java|kt|txt|md|xml)(?::\d+)?/gi` → `"<path>"`. -/
def unixPathRule : ReplRule := fun _ s => do
  let rest ← dropLitCS "/" s
  let (run, after) := spanP (fun c => !isWS c) rest
  let rest ← unixPathSplit run after run.length
  some ("<path>".data, '>', rest)

/-- Rule for `/[A-Za-z]:\\\\[^\s)]+/g` → `"<path>"` (a drive letter,
colon, two literal backslashes, then non-space non-`)` characters). -/
def windowsPathRule : ReplRule := fun _ s =>
  match s with
  | c :: rest =>
    if ('a' ≤ c && c ≤ 'z') || ('A' ≤ c && c ≤ 'Z') then do
      let rest ← dropLitCS ":" rest
      let rest ← dropLitCS "\\\\" rest
      match spanP (fun c => !isWS c && c ≠ ')') rest with
      | ([], _) => none
      | (run, rest) => some ("<path>".data, run.getLastD '>', rest)
    else none
  | [] => none

/-- Rule for `/line \d+/gi` → `"line X"`. -/
def lineNumberRule : ReplRule := fun _ s => do
  let rest ← dropLitCI "line " s
  let rest ← dropDigits1 rest
  some ("line X".data, 'X', rest)

/-- Rule for `/:\d+(?::\d+)?/g` → `":X"`. -/
def colonNumberRule : ReplRule := fun _ s => do
  let rest ← dropLitCS ":" s
  let rest ← dropDigits1 rest
  let rest := (do
      let r ← dropLitCS ":" rest
      dropDigits1 r).getD rest
  some (":X".data, 'X', rest)

/-- Character class `[0-9a-f]` with the `i` flag. -/
def isHexCh (c : Char) : Bool :=
  isDigitCh c || ('a' ≤ c && c ≤ 'f') || ('A' ≤ c && c ≤ 'F')

/-- Drops exactly `n` hex characters. -/
def dropHex : Nat → List Char → Option (List Char)
  | 0, s => some s
  | n + 1, c :: cs => if isHexCh c then dropHex n cs else none
  | _ + 1, [] => none

/-- Rule for the UUID regex
`/[0-9a-f]{8}-[0-9a-f]{4}-[0-9a-f]{4}-[0-9a-f]{4}-[0-9a-f]{12}/gi`
→ `"<uuid>"`. -/
def uuidRule : ReplRule := fun _ s => do
  let rest ← dropHex 8 s
  let rest ← dropLitCS "-" rest
  let rest ← dropHex 4 rest
  let rest ← dropLitCS "-" rest
  let rest ← dropHex 4 rest
  let rest ← dropLitCS "-" rest
  let rest ← dropHex 4 rest
  let rest ← dropLitCS "-" rest
  let rest ← dropHex 12 rest
  some ("<uuid>".data, '>', rest)

/-- Character class `[0-9:.+-Z]` of the timestamp regex: `+-Z` is the
range from `+` (0x2B) to `Z` (0x5A). -/
def isTsCh (c : Char) : Bool :=
  isDigitCh c || c = ':' || c = '.' || ('+' ≤ c && c ≤ 'Z')

/-- Drops exactly `n` digits. -/
def dropDigitsExact : Nat → List Char → Option (List Char)
  | 0, s => some s
  | n + 1, c :: cs => if isDigitCh c then dropDigitsExact n cs else none
  | _ + 1, [] => none

/-- Rule for `/\d{4}-\d{2}-\d{2}T[0-9:.+-Z]+/g` → `"<ts>"`. -/
def timestampRule : ReplRule := fun _ s => do
  let rest ← dropDigitsExact 4 s
  let rest ← dropLitCS "-" rest
  let rest ← dropDigitsExact 2 rest
  let rest ← dropLitCS "-" rest
  let rest ← dropDigitsExact 2 rest
  let rest ← dropLitCS "T" rest
  match spanP isTsCh rest with
  | ([], _) => none
  | (run, rest) => some ("<ts>".data, run.getLastD '>', rest)

/-- Rule for `/UnitTest\.\[\d+\]/g` → `"UnitTest.[X]"` (case sensitive). -/
def unitTestIndexRule : ReplRule := fun _ s => do
  let rest ← dropLitCS "UnitTest.[" s
  let rest ← dropDigits1 rest
  let rest ← dropLitCS "]" rest
  some ("UnitTest.[X]".data, ']', rest)

/-- Rule for `/Test\s*#\d+/gi` → `"Test #X"`. -/
def testHashRule : ReplRule := fun _ s => do
  let rest ← dropLitCI "Test" s
  let rest := dropWSStar rest
  let rest ← dropLitCS "#" rest
  let rest ← dropDigits1 rest
  some ("Test #X".data, 'X', rest)

/-- `normalizeAssignmentError` (`src/assignmentExtract.ts`): the full
rewrite pipeline in source order. -/
def normalizeAssignmentError (s : String) : String :=
  let n := s.data
  let n := replaceAll runnerPathRule1 n
  let n := replaceAll runnerPathRule2 n
  let n := replaceAll runnerPathRule3 n
  let n := replaceAll expectedActualRule n
  let n := replaceAll (ratioRule "Tests passed:" "Tests passed: X/Y") n
  let n := replaceAll (countRule "Tests run:" "Tests run: X") n
  let n := replaceAll (ratioRule "Faults detected:" "Faults detected: X/Y") n
  let n := replaceAll mutationScoreRule n
  let n := replaceAll (countRule "Total mutants:" "Total mutants: X") n
  let n := replaceAll (countRule "Killed mutants:" "Killed mutants: X") n
  let n := replaceAll (countRule "Survived mutants:" "Survived mutants: X") n
  let n := replaceAll unixPathRule n
  let n := replaceAll windowsPathRule n
  let n := replaceAll lineNumberRule n
  let n := replaceAll colonNumberRule n
  let n := replaceAll uuidRule n
  let n := replaceAll timestampRule n
  let n := replaceAll unitTestIndexRule n
  let n := replaceAll testHashRule n
  ⟨collapseWS n⟩

/-!  `extractNormalizedAssertion` and `isStudentTestFailure`
(`src/assignmentGroupErrors.ts`). -/

/-- The apostrophe character. -/
def apos : Char := Char.ofNat 39

/-- Needle of the `includes` check
`"Your tests failed against the instructor's solution"`. -/
def instructorSolutionNeedle : List Char :=
  "Your tests failed against the instructor".data ++ apos :: "s solution".data

/-- Needle of `isStudentTestFailure`:
`"Your tests failed against the instructor's solution, and hence, can not be graded"`. -/
def studentTestFailureNeedle : List Char :=
  instructorSolutionNeedle ++ ", and hence, can not be graded".data

/-- `isStudentTestFailure` (`src/assignmentGroupErrors.ts`). -/
def isStudentTestFailure (errorMsg : List Char) : Bool :=
  containsCS studentTestFailureNeedle errorMsg

/-- Attempts `expected:\s*<([^>]+)>\s+but\s+was:\s*<([^>]+)>` (flag `i`)
at the start of `s`, returning the two captures. -/
def matchExpectedActualAt (s : List Char) : Option (List Char × List Char) := do
  let rest ← dropLitCI "expected:" s
  let rest := dropWSStar rest
  let rest ← dropLitCS "<" rest
  let (e, rest) := spanP (fun c => c ≠ '>') rest
  if e.isEmpty then none else do
  let rest ← dropLitCS ">" rest
  let (ws1, rest) := spanP isWS rest
  if ws1.isEmpty then none else do
  let rest ← dropLitCI "but" rest
  let (ws2, rest) := spanP isWS rest
  if ws2.isEmpty then none else do
  let rest ← dropLitCI "was:" rest
  let rest := dropWSStar rest
  let rest ← dropLitCS "<" rest
  let (a, rest) := spanP (fun c => c ≠ '>') rest
  if a.isEmpty then none else do
  let _ ← dropLitCS ">" rest
  some (e, a)

/-- JS `errorMsg.match(regex)` for the expected/actual regex: the
leftmost match's captures. -/
def findExpectedActual : List Char → Option (List Char × List Char)
  | [] => matchExpectedActualAt []
  | c :: cs =>
    (matchExpectedActualAt (c :: cs)).orElse (fun _ => findExpectedActual cs)

/-- Rule for `/\b(\d+)\.0+\b/g` → `"$1"` (decimal formatting: `1.0` → `1`,
`1.5` kept). -/
def dotZeroRule : ReplRule := fun prev s =>
  if (prev.map isWordCh).getD false then none
  else
    match spanP isDigitCh s with
    | ([], _) => none
    | (ds, rest1) => do
      let rest2 ← dropLitCS "." rest1
      match spanP (fun c => c = '0') rest2 with
      | ([], _) => none
      | (_ :: _, rest3) =>
        match rest3 with
        | c :: _ => if isWordCh c then none else some (ds, '0', rest3)
        | [] => some (ds, '0', rest3)

/-- Rule for `/\d+\.\d+E\d+/gi` → `"LARGE_NUM"`. -/
def sciNotationRule : ReplRule := fun _ s =>
  match spanP isDigitCh s with
  | ([], _) => none
  | (_ :: _, rest1) => do
    let rest2 ← dropLitCS "." rest1
    match spanP isDigitCh rest2 with
    | ([], _) => none
    | (_ :: _, rest3) => do
      let rest4 ← dropLitCI "E" rest3
      match spanP isDigitCh rest4 with
      | ([], _) => none
      | (run, rest5) => some ("LARGE_NUM".data, run.getLastD 'M', rest5)

/-- Rule for `/\d{15,}/g` → `"LARGE_NUM"`. -/
def longNumRule : ReplRule := fun _ s =>
  match spanP isDigitCh s with
  | (run, rest) =>
    if run.length ≥ 15 then some ("LARGE_NUM".data, run.getLastD 'M', rest)
    else none

/-- The capture post-processing shared by both expected/actual branches of
`extractNormalizedAssertion`: whitespace collapse + trim, decimal
normalization, scientific notation and very long numbers. -/
def normalizeAssertionCapture (cap : List Char) : List Char :=
  let c := collapseWS cap
  let c := replaceAll dotZeroRule c
  let c := replaceAll sciNotationRule c
  replaceAll longNumRule c

/-- Attempts `app\.cookyourbooks\.domain\.(\w+Test)\.(\w+)` at the start
of `s` (case sensitive), returning the two captures. -/
def matchTestMethodAt (s : List Char) : Option (List Char × List Char) := do
  let rest ← dropLitCS "app.cookyourbooks.domain." s
  match spanP isWordCh rest with
  | (r1, rest1) =>
    if r1.length < 5 then none
    else if !decide (r1.drop (r1.length - 4) = "Test".data) then none
    else do
      let rest2 ← dropLitCS "." rest1
      match spanP isWordCh rest2 with
      | ([], _) => none
      | (r2, _) => some (r1, r2)

/-- Leftmost match of the test-method regex. -/
def findTestMethod : List Char → Option (List Char × List Char)
  | [] => matchTestMethodAt []
  | c :: cs => (matchTestMethodAt (c :: cs)).orElse (fun _ => findTestMethod cs)

/-- JS `String.prototype.split` on a single separator character. -/
def splitOnChar (sep : Char) : List Char → List (List Char)
  | [] => [[]]
  | c :: cs =>
    let r := splitOnChar sep cs
    if c = sep then [] :: r
    else
      match r with
      | h :: t => (c :: h) :: t
      | [] => [[c]]

/-- Joins lines with `"\n"` (JS `Array.prototype.join("\n")`). -/
def joinLines (lines : List (List Char)) : List Char :=
  List.intercalate ['\n'] lines

/-- Rule for `/org\.opentest4j\.AssertionFailedError:\s*/i` → `""`
(non-global: used with `replaceFirst`). -/
def assertionErrorHeadRule : ReplRule := fun _ s => do
  let rest ← dropLitCI "org.opentest4j.AssertionFailedError:" s
  let (run, rest) := spanP isWS rest
  some ([], run.getLastD ':', rest)

/-- `extractNormalizedAssertion` (`src/assignmentGroupErrors.ts`). -/
def extractNormalizedAssertion (errorMsg : String) : String :=
  let s := errorMsg.data
  let buildSnippet := fun (e a : List Char) =>
    "expected:<".data ++ normalizeAssertionCapture e ++
    "> but was:<".data ++ normalizeAssertionCapture a ++ ['>']
  if containsCS instructorSolutionNeedle s then
    match findExpectedActual s with
    | some (e, a) => ⟨buildSnippet e a⟩
    | none => "tests_failed_against_instructor_solution"
  else
    match findExpectedActual s with
    | some (e, a) => ⟨buildSnippet e a⟩
    | none =>
      match findTestMethod s with
      | some (r1, r2) => ⟨"test_method:".data ++ r1 ++ '.' :: r2⟩
      | none =>
        let lines := splitOnChar '\n' s
        match lines.find? (fun l =>
            containsCS "AssertionFailedError".data l &&
            !containsCS "at app//".data l &&
            !containsCS "at java.".data l) with
        | some l => ⟨(collapseWS (replaceFirst assertionErrorHeadRule l)).take 150⟩
        | none =>
          match lines.find? (fun l =>
              !(trimWS l).isEmpty &&
              !containsCS "at app//".data l &&
              !containsCS "at java.".data l &&
              !containsCS "Test failed:".data l) with
          | some l => ⟨(collapseWS l).take 100⟩
          | none => "unknown_test_failure"

/-!  `extractAssignmentCore` (`src/assignmentExtract.ts`). -/

/-- Line test `/Dependencies Not Met/i` or `/not graded because/i`. -/
def depLineTest (l : List Char) : Bool :=
  containsCI "Dependencies Not Met".data l || containsCI "not graded because".data l

/-- Line test `/Mutation testing|Faults detected|Mutation testing score/i`. -/
def mutationLineTest (l : List Char) : Bool :=
  containsCI "Mutation testing".data l ||
  containsCI "Faults detected".data l ||
  containsCI "Mutation testing score".data l

/-- Matcher for `expected:<[^>]+>\s+but was:<[^>]+>` (flag `i`). -/
def expectedActualM : Matcher :=
  mSeqs [mLitCI "expected:<", mPlusCls (fun c => c ≠ '>'), mLitCI ">",
         mPlusCls isWS, mLitCI "but was:<", mPlusCls (fun c => c ≠ '>'),
         mLitCI ">"]

/-- Line test `/expected:<[^>]+>\s+but was:<[^>]+>/i` or
`/AssertionError|ComparisonFailure/i`. -/
def assertionLineTest (l : List Char) : Bool :=
  searchM expectedActualM l ||
  containsCI "AssertionError".data l ||
  containsCI "ComparisonFailure".data l

/-- The dependency/mutation block window: from line `i`, up to 30 lines,
stopping at the first empty or all-whitespace line, each trimmed. -/
def takeBlock (lines : List (List Char)) (i : Nat) : List (List Char) :=
  (((lines.drop i).take 30).takeWhile (fun l => !(l.all isWS))).map trimWS

/-- `extractAssignmentCore` (`src/assignmentExtract.ts`). -/
def extractAssignmentCore (output : String) : String :=
  let lines := splitOnChar '\n' output.data
  match lines with
  | [] => ""
  | _ =>
    match lines.findIdx? depLineTest with
    | some i => ⟨trimWS (joinLines (takeBlock lines i))⟩
    | none =>
      match lines.findIdx? mutationLineTest with
      | some i => ⟨trimWS (joinLines (takeBlock lines i))⟩
      | none =>
        match lines.findIdx? assertionLineTest with
        | some i =>
          let start := i - 1
          let seg := (lines.drop start).take (i + 6 - start)
          ⟨joinLines ((seg.map trimWS).filter (fun l => !l.isEmpty))⟩
        | none =>
          ⟨joinLines (((lines.filter (fun l => !l.isEmpty)).take 8).map trimWS)⟩

/-!  `categorizeAssignmentError` (`src/assignmentCategories.ts`): the
ordered catalog, each JS regex as a Lean test.  `.` in a pattern is any
character except a line terminator. -/

/-- Character class of the regex `.` (not a line terminator). -/
def isDotCh (c : Char) : Bool := c ≠ '\n' && c ≠ '\r'

/-- An entry of `ASSIGNMENT_ERROR_CATEGORIES` (id and display name; the
prose description fields are not behaviour). -/
structure AssignmentErrorCategory where
  id : String
  name : String
  deriving DecidableEq, Repr

/-- Patterns of category `not_implemented`. -/
def notImplementedTests : List (List Char → Bool) :=
  [containsCI "Not yet implemented".data,
   containsCI "UnsupportedOperationException".data,
   containsCI "NotImplementedException".data,
   searchM (mSeqs [mLitCI "fail(", mRepUpTo isDotCh 80,
                   mLitCI "Not yet implemented", mRepUpTo isDotCh 80,
                   mLitCI ")"]),
   containsCI "not yet been provided by the student".data]

/-- Patterns of category `dependency_not_met`. -/
def dependencyNotMetTests : List (List Char → Bool) :=
  [containsCI "Dependencies Not Met".data,
   containsCI "not graded because the following dependencies were not satisfied".data,
   containsCI "NoClassDefFoundError".data,
   containsCI "ClassNotFoundException".data,
   containsCI "Could not resolve dependency".data]

/-- Matcher for `0(?:\.0+)?%` (zero score, optionally with a zero
fraction). -/
def zeroScoreM : Matcher :=
  mSeqs [mLitCS "0", mOpt (mSeq (mLitCS ".") (mPlusCls (fun c => c = '0'))),
         mLitCS "%"]

/-- Patterns of category `mutation_testing_zero_faults`. -/
def mutationZeroTests : List (List Char → Bool) :=
  [searchM (mSeqs [mLitCI "Faults detected:", mStarCls isWS, mLitCS "0", mEndWB]),
   searchM (mSeqs [mLitCI "Mutation testing score:", mStarCls isWS, zeroScoreM]),
   containsCI "All mutants survived".data,
   searchM (mSeqs [mLitCI "Killed mutants:", mStarCls isWS, mLitCS "0", mEndWB]),
   searchM (mSeqs [mLitCI "Mutations killed:", mStarCls isWS, mLitCS "0", mEndWB])]

/-- Patterns of category `mutation_testing_partial`
(with the `(?!0)` / `(?!0(?:\.0+)?%)` lookaheads). -/
def mutationPartialTests : List (List Char → Bool) :=
  [searchM (mSeqs [mLitCI "Faults detected:", mStarCls isWS,
                   mNotAhead (mLitCS "0"), mPlusCls isDigitCh]),
   searchM (mSeqs [mLitCI "Faults detected:", mStarCls isWS,
                   mNotAhead (mLitCS "0"), mPlusCls isDigitCh,
                   mStarCls isWS, mLitCS "/", mStarCls isWS, mPlusCls isDigitCh]),
   searchM (mSeqs [mLitCI "Mutation testing score:", mStarCls isWS,
                   mNotAhead zeroScoreM, mPlusCls isDigitCh,
                   mOpt (mSeq (mLitCS ".") (mPlusCls isDigitCh)), mLitCS "%"]),
   searchM (mSeqs [mLitCI "Survived mutants:", mStarCls isWS, mPlusCls isDigitCh])]

/-- Patterns of category `test_compilation_failed`. -/
def testCompilationTests : List (List Char → Bool) :=
  [containsCI "Your tests failed to compile".data,
   containsCI "Tests failed to compile".data,
   containsCI "Failed to compile tests".data]

/-- Patterns of category `test_failure`. -/
def testFailureTests : List (List Char → Bool) :=
  [searchM expectedActualM,
   containsCI "AssertionError".data,
   containsCI "ComparisonFailure".data,
   searchM (mSeqs [mLitCI "assert", mPlusCls isWS, mStarCls isDotCh,
                   mPlusCls isWS, mLitCI "failed"]),
   containsCI "AssertionFailedError".data,
   searchM (mSeqs [mLitCI "Tests passed:", mStarCls isWS, mPlusCls isDigitCh,
                   mStarCls isWS, mLitCS "/", mStarCls isWS, mPlusCls isDigitCh,
                   mStarCls (fun _ => true),
                   mAlt (mLitCI "fail") (mAlt (mLitCI "failure") (mLitCI "failed"))])]

/-- `ASSIGNMENT_ERROR_CATEGORIES`, in source order. -/
def assignmentErrorCatalog : List (AssignmentErrorCategory × List (List Char → Bool)) :=
  [(⟨"not_implemented", "Not Implemented"⟩, notImplementedTests),
   (⟨"dependency_not_met", "Dependency Not Met"⟩, dependencyNotMetTests),
   (⟨"mutation_testing_zero_faults", "Mutation Testing: Zero Faults"⟩, mutationZeroTests),
   (⟨"mutation_testing_partial", "Mutation Testing: Partial"⟩, mutationPartialTests),
   (⟨"test_compilation_failed", "Test Compilation Failed"⟩, testCompilationTests),
   (⟨"implementation_incomplete", "Implementation Incomplete"⟩,
     [containsCI "additional failing tests not shown".data]),
   (⟨"test_failure", "Test Failure"⟩, testFailureTests)]

/-- `categorizeAssignmentError`: first category with a matching pattern. -/
def categorizeAssignmentError (errorMessage : List Char) : Option AssignmentErrorCategory :=
  (assignmentErrorCatalog.find? (fun cat => cat.2.any (fun p => p errorMessage))).map (·.1)

/-!  Fingerprinting (`src/extractBuildErrors.ts`).  The 32-bit string
hash of `createFingerprint` is modelled exactly: `(hash << 5) - hash`
coerces through a 32-bit signed integer, as does `hash & hash`. -/

/-- Wraps an integer into signed 32-bit range (JS `|0` / `& -1`). -/
def toInt32 (n : Int) : Int :=
  let m := n % 4294967296
  if m < 2147483648 then m else m - 4294967296

/-- One step of the `createFingerprint` hash loop:
`hash = (hash << 5) - hash + charCode; hash = hash & hash`. -/
def jsHashStep (h : Int) (c : Char) : Int :=
  toInt32 (toInt32 (h * 32) - h + c.toNat)

/-- The accumulated 32-bit hash of a string, starting from 0. -/
def jsHash (s : List Char) : Int := s.foldl jsHashStep 0

/-- Base-36 digit character (`Number.prototype.toString(36)` alphabet). -/
def digit36 (n : Nat) : Char :=
  if n < 10 then Char.ofNat ('0'.toNat + n) else Char.ofNat ('a'.toNat + n - 10)

/-- Fueled worker for `natToBase36`; fuel `n` always suffices since the
argument shrinks by division by 36 every step. -/
def natToBase36Aux : Nat → Nat → List Char → List Char
  | 0, n, acc => digit36 (n % 36) :: acc
  | fuel + 1, n, acc =>
    if n < 36 then digit36 n :: acc
    else natToBase36Aux fuel (n / 36) (digit36 (n % 36) :: acc)

/-- Big-endian base-36 digits of a natural number. -/
def natToBase36 (n : Nat) : List Char := natToBase36Aux n n []

/-- `createFingerprint(normalized, categoryId)`:
hash the combined `categoryId:normalized` string and render
`Math.abs(hash)` in base 36. -/
def createFingerprint (normalized : String) (categoryId : String) : String :=
  ⟨natToBase36 (jsHash (categoryId.data ++ ':' :: normalized.data)).natAbs⟩

/-- Modelled from the spec: `computeFingerprintFromCanonicalKey` is
imported from `./extractBuildErrors` by `assignmentGroupErrors.ts`, but
its definition is not among the provided sources.  Per the spec (§3,
Fingerprint) it is "a deterministic, collision-resistant short identifier
derived from hashing the CanonicalKey"; we model it as the repository's
own 32-bit string hash (of `createFingerprint`) applied to the canonical
key.  Every theorem below that touches it depends only on it being a
function of the canonical key. -/
def computeFingerprintFromCanonicalKey (canonicalKey : String) : String :=
  ⟨natToBase36 (jsHash canonicalKey.data).natAbs⟩

/-!  `stripMarkdownAndBullets`, `buildCleanErrorText`
(`src/assignmentExtract.ts`). -/

/-- JS `String.prototype.split(/\r?\n/)`. -/
def splitLinesCRLF : List Char → List (List Char)
  | [] => [[]]
  | '\r' :: '\n' :: cs => [] :: splitLinesCRLF cs
  | '\n' :: cs => [] :: splitLinesCRLF cs
  | c :: cs =>
    match splitLinesCRLF cs with
    | h :: t => (c :: h) :: t
    | [] => [[c]]

/-- Rule removing every code fence: three backticks → `""`. -/
def codeFenceRule : ReplRule := fun _ s => do
  let rest ← dropLitCS "```" s
  some ([], '`', rest)

/-- Rule for `/\*\*([^*]+)\*\*/g` → `"$1"` (markdown bold). -/
def boldRule : ReplRule := fun _ s => do
  let rest ← dropLitCS "**" s
  match spanP (fun c => c ≠ '*') rest with
  | ([], _) => none
  | (inner, rest1) => do
    let rest2 ← dropLitCS "**" rest1
    some (inner, '*', rest2)

/-- JS `line.replace(/^\s*[\*•\-]\s+/g, "")`: with the `^` anchor and no
`m` flag this strips at most one leading bullet. -/
def stripBullet (l : List Char) : List Char :=
  let (ws, rest) := spanP isWS l
  match rest with
  | c :: rest1 =>
    if c = '*' || c = '•' || c = '-' then
      match spanP isWS rest1 with
      | ([], _) => l
      | (_ :: _, rest2) => rest2
    else ws ++ rest
  | [] => l

/-- JS `line.replace(/^\s*❌\s*/g, "")`. -/
def stripCrossMark (l : List Char) : List Char :=
  let (ws, rest) := spanP isWS l
  match rest with
  | c :: rest1 => if c = '❌' then dropWSStar rest1 else ws ++ rest
  | [] => l

/-- Rule for `/\s+\n\s+/g` → `" \n"`: matches a whitespace run that has a
newline at an interior position; greedy backtracking picks the last such
newline and the trailing `\s+` extends to the end of the run. -/
def wsNewlineWsRule : ReplRule := fun _ s =>
  match spanP isWS s with
  | ([], _) => none
  | (run, rest) =>
    let idxs := (List.range run.length).filter
      (fun a => 1 ≤ a && a + 2 ≤ run.length && run.getD a ' ' = '\n')
    match idxs.getLast? with
    | some _ => some ([' ', '\n'], run.getLastD '\n', rest)
    | none => none

/-- `stripMarkdownAndBullets` (`src/assignmentExtract.ts`). -/
def stripMarkdownAndBullets (text : List Char) : List Char :=
  let lines := splitLinesCRLF text
  let cleaned := ((((lines.map (replaceAll codeFenceRule)).map
    (replaceAll boldRule)).map stripBullet).map stripCrossMark).map trimWS
  let cleaned := cleaned.filter (fun l => l.length > 0)
  trimWS (replaceAll wsNewlineWsRule (List.intercalate [' ', '\n'] cleaned))

/-- The category-id test of `buildCleanErrorText`:
`/^dependency_not_met|mutation_testing_|test_compilation_failed$/`
(alternation binds loosest: anchored first alternative, floating second,
end-anchored third). -/
def cleanTextCategoryTest (categoryId : List Char) : Bool :=
  isPrefixOfCS "dependency_not_met".data categoryId ||
  containsCS "mutation_testing_".data categoryId ||
  isPrefixOfCS ("test_compilation_failed".data.reverse) categoryId.reverse

/-- `buildCleanErrorText` (`src/assignmentExtract.ts`). -/
def buildCleanErrorText (core : List Char) (testName : List Char)
    (categoryId : List Char) : List Char :=
  let plain := stripMarkdownAndBullets core
  let shouldPrefixTestName := !testName.isEmpty && !cleanTextCategoryTest categoryId
  if shouldPrefixTestName then
    trimWS ("Test failed: ".data ++ testName ++ '\n' :: plain)
  else plain

/-!  `buildAssignmentLLMRows` (`src/assignmentGroupErrors.ts`): the
grouping fold and the row assembly. -/

/-- A CSV cell as `getOutputText` can see it: a string, a present
non-string value (with its JS truthiness), or an absent field. -/
inductive CsvVal
  | str (s : String)
  | nonStr (truthy : Bool)
  | absent
  deriving DecidableEq, Repr

/-- JS truthiness of a `CsvVal`. -/
def CsvVal.isTruthy : CsvVal → Bool
  | .str s => !s.isEmpty
  | .nonStr t => t
  | .absent => false

/-- An input record of `buildAssignmentLLMRows`.  The five candidate
output columns keep their JS-value nature (the source checks
`typeof raw !== "string"`); `name` and `part` are CSV string columns. -/
structure AssignmentErrorRecord where
  output : CsvVal := .absent
  test_output : CsvVal := .absent
  mutation_output : CsvVal := .absent
  stdout : CsvVal := .absent
  stderr : CsvVal := .absent
  name : String := ""
  part : String := ""
  deriving DecidableEq, Repr

/-- `getOutputText`: the first truthy candidate column, else `""`. -/
def getOutputText (r : AssignmentErrorRecord) : CsvVal :=
  if r.output.isTruthy then r.output
  else if r.test_output.isTruthy then r.test_output
  else if r.mutation_output.isTruthy then r.mutation_output
  else if r.stdout.isTruthy then r.stdout
  else if r.stderr.isTruthy then r.stderr
  else .str ""

/-- The loop's guard `if (!raw || typeof raw !== "string") continue`:
the record is used only when `getOutputText` is a truthy string. -/
def usableOutput (r : AssignmentErrorRecord) : Option String :=
  match getOutputText r with
  | .str s => if s.isEmpty then none else some s
  | _ => none

/-- In-memory `ErrorGroup` accumulator of the grouping fold. -/
structure ErrorGroup where
  fingerprint : String
  canonicalKey : String
  categoryId : String
  categoryName : String
  normalizedMessage : String
  occurrences : Nat
  examples : List String
  originalExamples : List String
  testNameCounts : List (String × Nat)
  assignmentContextCounts : List (String × Nat)
  deriving DecidableEq, Repr

/-- JS `Map` counter bump `m.set(k, (m.get(k) || 0) + 1)`: update in
place if present, else append (insertion order preserved). -/
def bumpCount (l : List (String × Nat)) (k : String) : List (String × Nat) :=
  match l with
  | [] => [(k, 1)]
  | (k', n) :: rest =>
    if k' = k then (k', n + 1) :: rest else (k', n) :: bumpCount rest k

/-- `getModeValue`: first key attaining the strict running maximum. -/
def getModeValue (counts : List (String × Nat)) : String :=
  (counts.foldl (fun best kv => if kv.2 > best.2 then kv else best) ("", 0)).1

/-- The category after the student/instructor override of the grouping
loop (`category?.id === "test_failure"` split by `isStudentTestFailure`). -/
def effectiveCategory (core : List Char) (normalized : List Char) :
    AssignmentErrorCategory :=
  let category :=
    (categorizeAssignmentError core).orElse
      (fun _ => categorizeAssignmentError normalized)
  match category with
  | some c =>
    if c.id = "test_failure" then
      if isStudentTestFailure core then
        ⟨"student_test_failure", "Student Test Failure"⟩
      else
        ⟨"instructor_test_failure", "Instructor Test Failure"⟩
    else c
  | none => ⟨"unknown", "Unknown Error"⟩

/-- The per-record derived data of the grouping loop body. -/
structure RecordKeyData where
  raw : String
  core : String
  normalized : String
  category : AssignmentErrorCategory
  testName : String
  canonicalKey : String
  fingerprint : String

/-- Derives core, normalized text, category, canonical key and
fingerprint for one usable record (`includeTestNameInFingerprint` is the
source's constant `true`). -/
def recordKeyData (raw : String) (r : AssignmentErrorRecord) : RecordKeyData :=
  let core := extractAssignmentCore raw
  let normalized := normalizeAssignmentError core
  let category := effectiveCategory core.data normalized.data
  let testName := ⟨trimWS (if r.name.isEmpty then "Unknown Test".data else r.name.data)⟩
  let canonicalKey :=
    if category.id = "student_test_failure" || category.id = "instructor_test_failure" then
      category.id ++ "::" ++ extractNormalizedAssertion core
    else
      category.id ++ "::" ++ testName ++ "::" ++ normalized
  { raw, core, normalized, category, testName, canonicalKey,
    fingerprint := computeFingerprintFromCanonicalKey canonicalKey }

/-- Looks up a group by fingerprint in the insertion-ordered group map. -/
def findGroup (groups : List ErrorGroup) (fp : String) : Option ErrorGroup :=
  groups.find? (fun g => g.fingerprint = fp)

/-- Updates (or inserts) the group a record falls into, exactly as the
loop body: bump `occurrences`, retain the first example, bump the `part`
and test-name mode maps. -/
def updateGroup (g : ErrorGroup) (d : RecordKeyData) (r : AssignmentErrorRecord) :
    ErrorGroup :=
  let g := { g with occurrences := g.occurrences + 1 }
  let g :=
    if g.examples.length < 1 then
      { g with examples := g.examples ++ [d.core],
               originalExamples := g.originalExamples ++ [d.raw] }
    else g
  let part := ⟨trimWS r.part.data⟩
  let g :=
    if !part.isEmpty then
      { g with assignmentContextCounts := bumpCount g.assignmentContextCounts part }
    else g
  if !d.testName.isEmpty then
    { g with testNameCounts := bumpCount g.testNameCounts d.testName }
  else g

/-- Replaces the group with the given fingerprint (insertion order kept). -/
def replaceGroup (groups : List ErrorGroup) (fp : String) (g : ErrorGroup) :
    List ErrorGroup :=
  match groups with
  | [] => [g]
  | g' :: rest =>
    if g'.fingerprint = fp then g :: rest else g' :: replaceGroup rest fp g

/-- The zero-occurrence group created on first sight of a fingerprint. -/
def freshGroup (d : RecordKeyData) : ErrorGroup :=
  { fingerprint := d.fingerprint
    canonicalKey := d.canonicalKey
    categoryId := d.category.id
    categoryName := d.category.name
    normalizedMessage := d.normalized
    occurrences := 0
    examples := []
    originalExamples := []
    testNameCounts := []
    assignmentContextCounts := [] }

/-- One iteration of the grouping loop over `records`. -/
def groupStep (groups : List ErrorGroup) (r : AssignmentErrorRecord) :
    List ErrorGroup :=
  match usableOutput r with
  | none => groups
  | some raw =>
    let d := recordKeyData raw r
    let g :=
      match findGroup groups d.fingerprint with
      | some g => g
      | none => freshGroup d
    replaceGroup groups d.fingerprint (updateGroup g d r)

/-- The grouping fold of `buildAssignmentLLMRows`. -/
def groupRecords (records : List AssignmentErrorRecord) : List ErrorGroup :=
  records.foldl groupStep []

/-- The cleanup `originalText.replace(/\n+/g, "\n").replace(/\s+/g, " ").trim()`
used on several branches of `buildBetterCleanErrorText`. -/
def lightClean (s : List Char) : List Char :=
  collapseWS (replaceAll
    (fun _ s =>
      match spanP (fun c => c = '\n') s with
      | ([], _) => none
      | (run, rest) => some (['\n'], run.getLastD '\n', rest))
    s)

/-- `buildBetterCleanErrorText` (nested helper of `buildAssignmentLLMRows`). -/
def buildBetterCleanErrorText (originalText : List Char) (processedText : List Char)
    (categoryId : List Char) : List Char :=
  if containsCS "mutation".data categoryId then
    lightClean originalText
  else if processedText.length < 100 && originalText.length > processedText.length * 2 then
    lightClean originalText
  else
    let cleanText := buildCleanErrorText processedText [] categoryId
    if cleanText.length < 50 && originalText.length > 100 then
      lightClean originalText
    else cleanText

/-- An output row of `buildAssignmentLLMRows` (`GroupedAssignmentLLMRow`). -/
structure GroupedAssignmentLLMRow where
  errorCategory : String
  testName : String
  errorType : String
  errorMessage : String
  assignmentContext : String
  count : Nat
  fingerprint : String
  canonicalKey : String
  deriving DecidableEq, Repr

/-- The `errorType` derivation: every hyphen replaced by an underscore
(a global regex replace), then `String.prototype.toUpperCase` (ASCII). -/
def categoryIdToErrorType (categoryId : List Char) : List Char :=
  (categoryId.map (fun c => if c = '-' then '_' else c)).map Char.toUpper

/-- The row built from one finished group. -/
def rowOfGroup (g : ErrorGroup) : GroupedAssignmentLLMRow :=
  let testName := getModeValue g.testNameCounts
  let assignmentContext := getModeValue g.assignmentContextCounts
  let errorType : String := ⟨categoryIdToErrorType g.categoryId.data⟩
  let errorCategoryName :=
    if testName.isEmpty then g.categoryName else testName ++ " - " ++ g.categoryName
  let jsOrStr : Option String → String → String := fun v dflt =>
    match v with
    | some s => if s.isEmpty then dflt else s
    | none => dflt
  let originalText :=
    jsOrStr g.originalExamples.head? (jsOrStr g.examples.head? g.normalizedMessage)
  let processedText := jsOrStr g.examples.head? g.normalizedMessage
  let cleanText : String :=
    ⟨buildBetterCleanErrorText originalText.data processedText.data g.categoryId.data⟩
  { errorCategory := errorCategoryName
    testName := testName
    errorType := errorType
    errorMessage := cleanText
    assignmentContext := assignmentContext
    count := g.occurrences
    fingerprint := g.fingerprint
    canonicalKey := g.canonicalKey }

/-- `buildAssignmentLLMRows`, starting from the already-parsed record
list (the CSV read + parse boundary). -/
def buildAssignmentLLMRows (records : List AssignmentErrorRecord) :
    List GroupedAssignmentLLMRow :=
  (groupRecords records).map rowOfGroup

/-!  Concrete instances used by witnesses and counterexamples. -/

/-- A CSV row with no skip-triggering content. -/
def plainRow : EvaluationRow :=
  { category := "ArithTest - Test Failure", test_name := "ArithTest",
    error_type := "TEST_FAILURE", count := "3", fingerprint := "fp-a",
    canonical_key := "k-a", clean_error_text := "something went wrong" }

/-- A second plain row with a distinct fingerprint. -/
def plainRowB : EvaluationRow :=
  { category := "ListTest - Test Failure", test_name := "ListTest",
    error_type := "TEST_FAILURE", count := "2", fingerprint := "fp-b",
    canonical_key := "k-b", clean_error_text := "other failure detail" }

/-- A row in the literal dependency-gating category. -/
def depGateRow : EvaluationRow :=
  { plainRow with error_type := "DEPENDENCY_NOT_MET" }

/-- A provider result used by success scenarios. -/
def okResult : ProcessingResult :=
  { hint := "use a helper", timestamp := "2026-01-01T00:00:00Z" }

/-- A provider whose calls always succeed, for every row. -/
def alwaysOkProvider : EvaluationRow → Provider := fun _ _ => .ok okResult

/-- A provider that always fails with an HTTP 429 status. -/
def always429Provider : Provider :=
  fun _ => .error { status := some 429, message := "Too Many Requests" }

/-- A provider that always fails with a terminal (non-rate-limit) error,
for every row. -/
def alwaysFailProvider : EvaluationRow → Provider :=
  fun _ _ => .error { status := none, message := "ECONNRESET" }

/-- An input record carrying `expected:<2.0> but was:<2.5>`. -/
def snippetRecordA : AssignmentErrorRecord :=
  { output := .str "expected:<2.0> but was:<2.5>" }

/-- An input record carrying `expected:<2.00> but was:<2.50>`. -/
def snippetRecordB : AssignmentErrorRecord :=
  { output := .str "expected:<2.00> but was:<2.50>" }

/-- The two-row batch of the concurrency witness. -/
def c6Rows : List EvaluationRow := [plainRow, plainRowB]

/-- An interleaved two-worker schedule: worker 1 finishes before
worker 0. -/
def c6Sched : List Ev := [.start 0, .start 1, .finish 1, .finish 0]

/-- The entry all successful jobs of the concurrency witness persist. -/
def okEntry : StateEntry := entryOfResult okResult

/-- The final execution state reached by `c6Sched`. -/
def c6Final : ExecSt :=
  { file := [("fp-b", okEntry), ("fp-a", okEntry)]
    persisted := [("fp-b", okEntry), ("fp-a", okEntry)]
    phases := [.done, .done] }

/-- The execution invariant of a concurrent combination run on distinct
fingerprints: the shared in-memory state holds exactly the entries of the
rows already `done`, and the document on disk equals the shared state
(every save writes the single shared object). -/
def ExecInv (rows : List EvaluationRow) (st : ExecSt) : Prop :=
  st.phases.length = rows.length ∧
  st.persisted = st.file ∧
  (∀ (i : Nat) (row : EvaluationRow), rows[i]? = some row →
      ((objGet st.file row.fingerprint).isSome = true ↔ st.phases[i]? = some .done)) ∧
  st.file.length = (st.phases.filter (fun p => p == .done)).length

/-!  Helper lemmas. -/

theorem objGet_objSet (l : StateFile) (k k' : String) (v : StateEntry) :
    objGet (objSet l k' v) k = if k = k' then some v else objGet l k := by
  induction l with
  | nil =>
    by_cases h : k = k'
    · subst h; simp [objGet, objSet]
    · have h' : ¬k' = k := fun he => h he.symm
      simp [objGet, objSet, h, h']
  | cons hd tl ih =>
    obtain ⟨k₀, v₀⟩ := hd
    simp only [objSet]
    by_cases h₀ : k₀ = k'
    · subst h₀
      by_cases h : k = k₀
      · subst h; simp [objGet]
      · have h' : ¬k₀ = k := fun he => h he.symm
        simp [objGet, h, h']
    · simp only [if_neg h₀, objGet, ih]
      by_cases h₁ : k₀ = k
      · subst h₁
        have h' : ¬k₀ = k' := h₀
        simp [h']
      · simp [h₁]

theorem objSet_length_new (l : StateFile) (k : String) (v : StateEntry)
    (h : objGet l k = none) : (objSet l k v).length = l.length + 1 := by
  induction l with
  | nil => rfl
  | cons hd tl ih =>
    obtain ⟨k₀, v₀⟩ := hd
    by_cases h₀ : k₀ = k
    · simp [objGet, h₀] at h
    · simp only [objGet, h₀, if_false] at h
      simp [objSet, h₀, ih h]

theorem retryAux_all429 (op : Provider) (remaining : Nat) :
    ∀ attempt, (∀ n, ∃ e, op n = .error e ∧ isRateLimitError e = true) →
    ∃ e, retryAux op attempt remaining = (.error e, remaining + 1) := by
  induction remaining with
  | zero =>
    intro attempt h
    obtain ⟨e, he, _⟩ := h attempt
    exact ⟨e, by simp [retryAux, he]⟩
  | succ m ih =>
    intro attempt h
    obtain ⟨e, he, hrl⟩ := h attempt
    obtain ⟨e', he'⟩ := ih (attempt + 1) h
    exact ⟨e', by simp [retryAux, he, hrl, he']⟩

theorem retryAux_terminal (op : Provider) (remaining attempt : Nat) (e : JsError)
    (he : op attempt = .error e) (hrl : isRateLimitError e = false) :
    retryAux op attempt remaining = (.error e, 1) := by
  cases remaining <;> simp [retryAux, he, hrl]

theorem processSingleRow_resolved (row : EvaluationRow) (provider : Provider)
    (state : StateFile)
    (h : (getSkipReason row).isSome = true ∨ isAlreadyProcessed row state = true) :
    processSingleRow row provider state = (state, .skipped, 0) := by
  rcases h with h | h
  · obtain ⟨r, hr⟩ := Option.isSome_iff_exists.mp h
    simp [processSingleRow, hr]
  · cases hs : getSkipReason row with
    | some r => simp [processSingleRow, hs]
    | none => simp [processSingleRow, hs, h]

theorem processSingleRow_state_mono (row : EvaluationRow) (provider : Provider)
    (state : StateFile) (k : String)
    (h : (objGet state k).isSome = true) :
    (objGet (processSingleRow row provider state).1 k).isSome = true := by
  cases hs : getSkipReason row with
  | some r => simpa [processSingleRow, hs] using h
  | none =>
    cases ha : isAlreadyProcessed row state with
    | true => simpa [processSingleRow, hs, ha] using h
    | false =>
      rcases hr : retryWithBackoff provider with ⟨res, n⟩
      cases res with
      | ok r =>
        simp only [processSingleRow, hs, ha, Bool.false_eq_true, if_false, hr]
        rw [objGet_objSet]
        split
        · simp
        · exact h
      | error e => simpa [processSingleRow, hs, ha, hr] using h

theorem processSingleRow_no_fail_entry (row : EvaluationRow) (provider : Provider)
    (state : StateFile)
    (hout : (processSingleRow row provider state).2.1 ≠ .failed) :
    (getSkipReason row).isSome = true ∨
      (objGet (processSingleRow row provider state).1 row.fingerprint).isSome = true := by
  cases hs : getSkipReason row with
  | some r => exact Or.inl (by simp [hs])
  | none =>
    refine Or.inr ?_
    cases ha : isAlreadyProcessed row state with
    | true =>
      have ha' : (objGet state row.fingerprint).isSome = true := ha
      simpa [processSingleRow, hs, ha] using ha'
    | false =>
      rcases hr : retryWithBackoff provider with ⟨res, n⟩
      cases res with
      | ok r =>
        simp only [processSingleRow, hs, ha, Bool.false_eq_true, if_false, hr]
        rw [objGet_objSet]
        simp
      | error e =>
        exact absurd (by simp [processSingleRow, hs, ha, hr]) hout

theorem runStep_failedN (provider : EvaluationRow → Provider) (acc : RunStats)
    (row : EvaluationRow) :
    (runStep provider acc row).failedN = acc.failedN +
      (if (processSingleRow row (provider row) acc.state).2.1 = .failed then 1 else 0) := rfl

theorem runStep_calls (provider : EvaluationRow → Provider) (acc : RunStats)
    (row : EvaluationRow) :
    (runStep provider acc row).calls =
      acc.calls + (processSingleRow row (provider row) acc.state).2.2 := rfl

theorem runStep_state (provider : EvaluationRow → Provider) (acc : RunStats)
    (row : EvaluationRow) :
    (runStep provider acc row).state =
      (processSingleRow row (provider row) acc.state).1 := rfl

theorem runRows_failedN_mono (provider : EvaluationRow → Provider)
    (rows : List EvaluationRow) :
    ∀ acc : RunStats, acc.failedN ≤ (runRows provider rows acc).failedN := by
  induction rows with
  | nil => intro acc; exact Nat.le_refl _
  | cons r rest ih =>
    intro acc
    calc acc.failedN ≤ (runStep provider acc r).failedN := by
          rw [runStep_failedN]; exact Nat.le_add_right _ _
      _ ≤ (runRows provider rest (runStep provider acc r)).failedN := ih _
      _ = (runRows provider (r :: rest) acc).failedN := rfl

theorem runRows_state_mono (provider : EvaluationRow → Provider)
    (rows : List EvaluationRow) :
    ∀ (acc : RunStats) (k : String), (objGet acc.state k).isSome = true →
    (objGet (runRows provider rows acc).state k).isSome = true := by
  induction rows with
  | nil => intro acc k h; exact h
  | cons r rest ih =>
    intro acc k h
    have hmono : (objGet (runStep provider acc r).state k).isSome = true := by
      rw [runStep_state]
      exact processSingleRow_state_mono r (provider r) acc.state k h
    exact ih _ k hmono

theorem runRows_no_new_failures (provider : EvaluationRow → Provider)
    (rows : List EvaluationRow) :
    ∀ acc : RunStats, (runRows provider rows acc).failedN = acc.failedN →
    ∀ row ∈ rows, getSkipReason row = none →
    (objGet (runRows provider rows acc).state row.fingerprint).isSome = true := by
  induction rows with
  | nil => intro acc _ row hmem; exact absurd hmem (List.not_mem_nil row)
  | cons r rest ih =>
    intro acc hfail row hmem hskip
    have hchain : runRows provider (r :: rest) acc =
        runRows provider rest (runStep provider acc r) := rfl
    rw [hchain] at hfail ⊢
    have hmono := runRows_failedN_mono provider rest (runStep provider acc r)
    have hstep : (runStep provider acc r).failedN = acc.failedN := by
      rw [runStep_failedN] at hmono ⊢
      omega
    have hocn : (processSingleRow r (provider r) acc.state).2.1 ≠ .failed := by
      intro hoc
      rw [runStep_failedN, hoc, if_pos rfl] at hstep
      omega
    rcases List.mem_cons.mp hmem with hr | hr
    · subst hr
      rcases processSingleRow_no_fail_entry row (provider row) acc.state hocn with
        hskip' | hsome
      · rw [hskip] at hskip'; simp at hskip'
      · refine runRows_state_mono provider rest _ _ ?_
        rw [runStep_state]
        exact hsome
    · exact ih _ (hfail.trans hstep.symm) row hr hskip

theorem runRows_all_resolved (provider : EvaluationRow → Provider)
    (rows : List EvaluationRow) :
    ∀ acc : RunStats,
    (∀ row ∈ rows, (getSkipReason row).isSome = true ∨
        isAlreadyProcessed row acc.state = true) →
    (runRows provider rows acc).calls = acc.calls ∧
      (runRows provider rows acc).state = acc.state := by
  induction rows with
  | nil => intro acc _; exact ⟨rfl, rfl⟩
  | cons r rest ih =>
    intro acc h
    have hres := processSingleRow_resolved r (provider r) acc.state
      (h r (List.mem_cons_self r rest))
    have hchain : runRows provider (r :: rest) acc =
        runRows provider rest (runStep provider acc r) := rfl
    have hstate : (runStep provider acc r).state = acc.state := by
      rw [runStep_state, hres]
    have hcalls : (runStep provider acc r).calls = acc.calls := by
      rw [runStep_calls, hres]
      simp
    have hrest := ih (runStep provider acc r)
      (fun row hmem => by rw [hstate]; exact h row (List.mem_cons_of_mem r hmem))
    rw [hchain]
    exact ⟨hrest.1.trans hcalls, hrest.2.trans hstate⟩

/-!  Claim theorems. -/

/-- C1 (amended): if a row's fingerprint already has an entry in the
loaded state, `processSingleRow` makes no provider call, leaves the state
(hence the entry) unchanged, and counts the row as skipped; consequently,
when the first run over the rows left no row Failed, a second run over
the same rows starting from the state the first run produced makes zero
additional provider calls (with any provider).  Models and prompt
variations enter only through the quantified provider. -/
theorem alreadyProcessed_skips_and_second_run_call_free
    (rows : List EvaluationRow) (prov1 prov2 : EvaluationRow → Provider)
    (hnofail : (runCombination prov1 rows []).failedN = 0) :
    (∀ (row : EvaluationRow) (provider : Provider) (state : StateFile),
        isAlreadyProcessed row state = true →
        processSingleRow row provider state = (state, .skipped, 0)) ∧
    (runCombination prov2 rows (runCombination prov1 rows []).state).calls = 0 := by
  constructor
  · intro row provider state ha
    exact processSingleRow_resolved row provider state (Or.inr ha)
  · have hproc := runRows_no_new_failures prov1 rows { state := [] } hnofail
    have hall : ∀ row ∈ rows, (getSkipReason row).isSome = true ∨
        isAlreadyProcessed row
          (({ state := (runCombination prov1 rows []).state } : RunStats)).state = true := by
      intro row hmem
      cases hs : getSkipReason row with
      | some r => exact Or.inl (by simp [hs])
      | none => exact Or.inr (hproc row hmem hs)
    exact (runRows_all_resolved prov2 rows
      { state := (runCombination prov1 rows []).state } hall).1

/-- Witness for C1's amended theorem at a concrete one-row batch whose
single provider call succeeds. -/
theorem alreadyProcessed_skips_and_second_run_call_free_witness :
    (runCombination alwaysOkProvider [plainRow] []).failedN = 0 ∧
    ((∀ (row : EvaluationRow) (provider : Provider) (state : StateFile),
        isAlreadyProcessed row state = true →
        processSingleRow row provider state = (state, .skipped, 0)) ∧
      (runCombination alwaysOkProvider [plainRow]
        (runCombination alwaysOkProvider [plainRow] []).state).calls = 0) :=
  ⟨by decide,
   alreadyProcessed_skips_and_second_run_call_free [plainRow]
     alwaysOkProvider alwaysOkProvider (by decide)⟩

/-- Counterexample to C1 as stated: when the single provider call of the
first run fails terminally, no entry is persisted, and a second run over
the same row makes one additional provider call, not zero. -/
theorem second_run_not_call_free_after_failure :
    (runCombination alwaysFailProvider [plainRow] []).failedN = 1 ∧
    (runCombination alwaysFailProvider [plainRow]
      (runCombination alwaysFailProvider [plainRow] []).state).calls = 1 := by
  decide

/-- C2: when every provider invocation fails with a rate-limit-class
error (`status === 429` or a message containing `"429"`),
`retryWithBackoff` at its default `maxRetries = 3` makes exactly
`maxRetries + 1 = 4` invocations, and `processSingleRow` then counts the
row as Failed with the state untouched. -/
theorem rate_limit_retry_makes_four_calls_then_fails
    (row : EvaluationRow) (provider : Provider) (state : StateFile)
    (hskip : getSkipReason row = none)
    (hnew : isAlreadyProcessed row state = false)
    (hfail : ∀ n, ∃ e, provider n = .error e ∧ isRateLimitError e = true) :
    (retryWithBackoff provider).2 = 4 ∧
    processSingleRow row provider state = (state, .failed, 4) := by
  obtain ⟨e, he⟩ := retryAux_all429 provider 3 0 hfail
  refine ⟨by simp [retryWithBackoff, he], ?_⟩
  simp [processSingleRow, hskip, hnew, retryWithBackoff, he]

/-- Witness for C2 at a concrete row and an always-429 provider. -/
theorem rate_limit_retry_makes_four_calls_then_fails_witness :
    getSkipReason plainRow = none ∧
    isAlreadyProcessed plainRow [] = false ∧
    (∀ n, ∃ e, always429Provider n = .error e ∧ isRateLimitError e = true) ∧
    ((retryWithBackoff always429Provider).2 = 4 ∧
      processSingleRow plainRow always429Provider [] = ([], .failed, 4)) :=
  ⟨by decide, by decide,
   fun _ => ⟨{ status := some 429, message := "Too Many Requests" }, rfl, by decide⟩,
   rate_limit_retry_makes_four_calls_then_fails plainRow always429Provider []
     (by decide) (by decide)
     (fun _ => ⟨{ status := some 429, message := "Too Many Requests" }, rfl, by decide⟩)⟩

/-- C4 (amended): `loadState` returns the empty state when the document
is missing and the parsed state when it parses, but a present
unparseable document makes `JSON.parse` — and hence `loadState` — throw. -/
theorem loadState_empty_on_missing_but_throws_on_corrupt :
    loadState .missing = .ok [] ∧
    (∀ s : StateFile, loadState (.present (some s)) = .ok s) ∧
    loadState (.present none) = .error () :=
  ⟨rfl, fun _ => rfl, rfl⟩

/-- Counterexample to C4 as stated: on a present-but-unparseable state
document `loadState` propagates the `JSON.parse` exception instead of
returning the empty state. -/
theorem loadState_throws_on_corrupt_cex :
    loadState (.present none) = .error () ∧ loadState (.present none) ≠ .ok [] :=
  ⟨rfl, fun h => Except.noConfusion h⟩

/-- C5: a row whose `error_type` is the literal `"DEPENDENCY_NOT_MET"`
always gets a non-null skip reason, and `processSingleRow` returns
without any provider invocation, counting the row as skipped — for every
provider behaviour (hence every model and prompt variation) and every
loaded state. -/
theorem dependency_not_met_always_skipped
    (row : EvaluationRow) (provider : Provider) (state : StateFile)
    (h : row.error_type = "DEPENDENCY_NOT_MET") :
    getSkipReason row = some "DEPENDENCY_NOT_MET category" ∧
    processSingleRow row provider state = (state, .skipped, 0) := by
  have hs : getSkipReason row = some "DEPENDENCY_NOT_MET category" := by
    simp [getSkipReason, h]
  exact ⟨hs, by simp [processSingleRow, hs]⟩

/-- Witness for C5 at a concrete dependency-gated row. -/
theorem dependency_not_met_always_skipped_witness :
    depGateRow.error_type = "DEPENDENCY_NOT_MET" ∧
    (getSkipReason depGateRow = some "DEPENDENCY_NOT_MET category" ∧
      processSingleRow depGateRow always429Provider [] = ([], .skipped, 0)) :=
  ⟨by decide,
   dependency_not_met_always_skipped depGateRow always429Provider [] (by decide)⟩

theorem containsCS_429_wrap (m : String) :
    containsCS "429".data ("API call failed: " ++ m).data =
      containsCS "429".data m.data := by
  rw [String.data_append]
  simp [show ("API call failed: ".data) =
    ['A','P','I',' ','c','a','l','l',' ','f','a','i','l','e','d',':',' '] from rfl,
    containsCS, isPrefixOfCS]

/-- C10: every provider failure routed through `ModelManager.processRow`
is rewrapped as a fresh `Error` with message `"API call failed: " +
message` and no numeric `status` field, so the rate-limit test
`retryWithBackoff` applies to it holds exactly when the original message
text contains `"429"` — in particular a 429 failure whose message omits
`"429"` gets a single invocation (treated as terminal), while a message
containing `"429"` gets the full `maxRetries + 1 = 4`. -/
theorem wrapped_error_retried_iff_message_contains_429 (e : JsError) :
    isRateLimitError (wrapProcessRowError e) = containsCS "429".data e.message.data ∧
    (retryWithBackoff (fun _ => .error (wrapProcessRowError e))).2 =
      (if containsCS "429".data e.message.data then 4 else 1) := by
  have h1 : isRateLimitError (wrapProcessRowError e) =
      containsCS "429".data e.message.data := by
    simp only [isRateLimitError, wrapProcessRowError]
    rw [containsCS_429_wrap]
    simp
  refine ⟨h1, ?_⟩
  cases h : containsCS "429".data e.message.data with
  | true =>
    obtain ⟨e', he'⟩ := retryAux_all429 (fun _ => .error (wrapProcessRowError e)) 3 0
      (fun _ => ⟨wrapProcessRowError e, rfl, by rw [h1, h]⟩)
    simp [retryWithBackoff, he', h]
  | false =>
    have := retryAux_terminal (fun _ => .error (wrapProcessRowError e)) 3 0
      (wrapProcessRowError e) rfl (by rw [h1, h])
    simp [retryWithBackoff, this, h]

/-!  Lemmas for the concurrency claim. -/

theorem filter_done_length_set (l : List JobPhase) :
    ∀ (i : Nat) (u v : JobPhase), l[i]? = some u →
    ((l.set i v).filter (fun p => p == .done)).length +
      (if u = JobPhase.done then 1 else 0) =
    (l.filter (fun p => p == .done)).length + (if v = JobPhase.done then 1 else 0) := by
  induction l with
  | nil => intro i u v h; simp at h
  | cons p rest ih =>
    intro i u v h
    cases i with
    | zero =>
      have hup : u = p := by simpa using h.symm
      subst hup
      by_cases hu : u = JobPhase.done <;> by_cases hv : v = JobPhase.done <;>
        simp [List.set, List.filter_cons, hu, hv]
    | succ n =>
      have h' : rest[n]? = some u := by simpa using h
      have hih := ih n u v h'
      by_cases hp : p = JobPhase.done <;>
        simp [List.set, List.filter_cons, hp] <;> omega

theorem filter_done_init (rows : List EvaluationRow) :
    ((rows.map (fun _ => JobPhase.notStarted)).filter (fun p => p == .done)).length = 0 := by
  induction rows with
  | nil => rfl
  | cons r rest ih => simp [List.filter_cons, ih]

theorem nodup_fingerprint_ne (rows : List EvaluationRow)
    (hdist : (rows.map (·.fingerprint)).Nodup) {i j : Nat} (hij : i ≠ j)
    {rowi rowj : EvaluationRow}
    (hi : rows[i]? = some rowi) (hj : rows[j]? = some rowj) :
    rowi.fingerprint ≠ rowj.fingerprint := by
  obtain ⟨hi', hie⟩ := List.getElem?_eq_some.mp hi
  obtain ⟨hj', hje⟩ := List.getElem?_eq_some.mp hj
  intro heq
  apply hij
  have hbi : i < (rows.map (·.fingerprint)).length := by simpa using hi'
  have hbj : j < (rows.map (·.fingerprint)).length := by simpa using hj'
  have hmap : (rows.map (·.fingerprint)).get ⟨i, hbi⟩ =
      (rows.map (·.fingerprint)).get ⟨j, hbj⟩ := by
    simp only [List.get_eq_getElem, List.getElem_map]
    rw [hie, hje, heq]
  exact congrArg Fin.val ((List.Nodup.get_inj_iff hdist).mp hmap)

theorem execInv_init (rows : List EvaluationRow) : ExecInv rows (initExecSt rows) := by
  refine ⟨by simp [initExecSt], rfl, ?_, ?_⟩
  · intro i row h
    constructor
    · intro hg; simp [initExecSt, objGet] at hg
    · intro hp
      rw [show (initExecSt rows).phases = rows.map (fun _ => JobPhase.notStarted) from rfl,
          List.getElem?_map, h] at hp
      simp at hp
  · show ([] : StateFile).length = _
    rw [show (initExecSt rows).phases = rows.map (fun _ => JobPhase.notStarted) from rfl,
        filter_done_init rows]
    rfl

theorem execInv_step (rows : List EvaluationRow) (provider : EvaluationRow → Provider)
    (st st' : ExecSt) (ev : Ev)
    (hdist : (rows.map (·.fingerprint)).Nodup)
    (hskip : ∀ row ∈ rows, getSkipReason row = none)
    (hok : ∀ row ∈ rows, ∃ r, (retryWithBackoff (provider row)).1 = .ok r)
    (hinv : ExecInv rows st)
    (hst : execEv rows provider st ev = some st') :
    ExecInv rows st' := by
  obtain ⟨hlen, hpf, hiff, hcount⟩ := hinv
  cases ev with
  | start i =>
    rcases hrow : rows[i]? with _ | row
    · simp [execEv, hrow] at hst
    rcases hph : st.phases[i]? with _ | ph
    · simp [execEv, hrow, hph] at hst
    cases ph with
    | inFlight => simp [execEv, hrow, hph] at hst
    | done => simp [execEv, hrow, hph] at hst
    | notStarted =>
      have hskiprow : getSkipReason row = none :=
        hskip row (List.getElem?_mem hrow)
      have hnotdone : ¬st.phases[i]? = some JobPhase.done := by
        rw [hph]; simp
      have hnosome : (objGet st.file row.fingerprint).isSome = false := by
        cases hcase : (objGet st.file row.fingerprint).isSome with
        | false => rfl
        | true => exact absurd ((hiff i row hrow).mp hcase) hnotdone
      have halready : isAlreadyProcessed row st.file = false := hnosome
      have hst' : st' = { st with phases := st.phases.set i .inFlight } := by
        rw [execEv, hrow, hph] at hst
        simp [hskiprow, halready] at hst
        exact hst.symm
      subst hst'
      have hilen : i < st.phases.length := by
        by_contra hge
        rw [List.getElem?_eq_none (Nat.le_of_not_lt hge)] at hph
        exact Option.noConfusion hph
      refine ⟨by simpa using hlen, hpf, ?_, ?_⟩
      · intro j rowj hj
        by_cases hij : j = i
        · subst hij
          have : rowj = row := by rw [hrow] at hj; exact (Option.some.inj hj).symm
          subst this
          simp only [List.getElem?_set_self', List.getElem?_eq_getElem hilen]
          constructor
          · intro hg; rw [hnosome] at hg; exact Bool.noConfusion hg
          · intro hcontra; simp at hcontra
        · simp only
          rw [List.getElem?_set_ne (fun h => hij h.symm)]
          exact hiff j rowj hj
      · have hfds := filter_done_length_set st.phases i .notStarted .inFlight hph
        simp at hfds
        show st.file.length =
          ((st.phases.set i JobPhase.inFlight).filter (fun p => p == JobPhase.done)).length
        omega
  | finish i =>
    rcases hrow : rows[i]? with _ | row
    · simp [execEv, hrow] at hst
    rcases hph : st.phases[i]? with _ | ph
    · simp [execEv, hrow, hph] at hst
    cases ph with
    | notStarted => simp [execEv, hrow, hph] at hst
    | done => simp [execEv, hrow, hph] at hst
    | inFlight =>
      obtain ⟨r, hr⟩ := hok row (List.getElem?_mem hrow)
      have hst' : st' =
          { file := objSet st.file row.fingerprint (entryOfResult r)
            persisted := objSet st.file row.fingerprint (entryOfResult r)
            phases := st.phases.set i .done } := by
        rw [execEv, hrow, hph] at hst
        simp [hr] at hst
        exact hst.symm
      subst hst'
      have hilen : i < st.phases.length := by
        by_contra hge
        rw [List.getElem?_eq_none (Nat.le_of_not_lt hge)] at hph
        exact Option.noConfusion hph
      have hnotdone : ¬st.phases[i]? = some JobPhase.done := by
        rw [hph]; simp
      have hnone : objGet st.file row.fingerprint = none := by
        rw [← Option.not_isSome_iff_eq_none]
        intro hcontra
        exact hnotdone ((hiff i row hrow).mp hcontra)
      refine ⟨by simpa using hlen, rfl, ?_, ?_⟩
      · intro j rowj hj
        by_cases hij : j = i
        · subst hij
          have : rowj = row := by rw [hrow] at hj; exact (Option.some.inj hj).symm
          subst this
          simp only [List.getElem?_set_self', List.getElem?_eq_getElem hilen]
          rw [objGet_objSet]
          simp
        · simp only
          rw [List.getElem?_set_ne (fun h => hij h.symm)]
          rw [objGet_objSet]
          have hne : rowj.fingerprint ≠ row.fingerprint :=
            nodup_fingerprint_ne rows hdist hij hj hrow
          rw [if_neg hne]
          exact hiff j rowj hj
      · have hlen' := objSet_length_new st.file row.fingerprint (entryOfResult r) hnone
        have hfds := filter_done_length_set st.phases i .inFlight .done hph
        simp at hfds
        show (objSet st.file row.fingerprint (entryOfResult r)).length =
          ((st.phases.set i JobPhase.done).filter (fun p => p == JobPhase.done)).length
        omega

theorem execInv_sched (rows : List EvaluationRow) (provider : EvaluationRow → Provider)
    (hdist : (rows.map (·.fingerprint)).Nodup)
    (hskip : ∀ row ∈ rows, getSkipReason row = none)
    (hok : ∀ row ∈ rows, ∃ r, (retryWithBackoff (provider row)).1 = .ok r) :
    ∀ (sched : List Ev) (st st' : ExecSt), ExecInv rows st →
    execSched rows provider sched st = some st' → ExecInv rows st' := by
  intro sched
  induction sched with
  | nil =>
    intro st st' hinv hrun
    have : st = st' := by simpa [execSched] using hrun
    exact this ▸ hinv
  | cons ev evs ih =>
    intro st st' hinv hrun
    rcases hev : execEv rows provider st ev with _ | st₁
    · rw [execSched, hev] at hrun; exact Option.noConfusion hrun
    · rw [execSched, hev] at hrun
      exact ih st₁ st' (execInv_step rows provider st st₁ ev hdist hskip hok hinv hev) hrun

/-- C6: with concurrency ≥ 2 modelled as an arbitrary interleaving of
job starts and completions over the single shared state object, a run
over rows with pairwise-distinct fingerprints, no skip reasons, and
all-successful (retried) provider calls ends — on every complete
schedule — with the persisted document equal to the shared state and
holding exactly one entry per row: no completion is lost to another
worker's whole-document save. -/
theorem concurrent_run_persists_all_entries
    (rows : List EvaluationRow) (provider : EvaluationRow → Provider)
    (sched : List Ev) (final : ExecSt)
    (hdist : (rows.map (·.fingerprint)).Nodup)
    (hskip : ∀ row ∈ rows, getSkipReason row = none)
    (hok : ∀ row ∈ rows, ∃ r, (retryWithBackoff (provider row)).1 = .ok r)
    (hrun : execSched rows provider sched (initExecSt rows) = some final)
    (hdone : ∀ p ∈ final.phases, p = .done) :
    final.persisted = final.file ∧
    final.persisted.length = rows.length ∧
    ∀ row ∈ rows, (objGet final.persisted row.fingerprint).isSome = true := by
  have hinv := execInv_sched rows provider hdist hskip hok sched
    (initExecSt rows) final (execInv_init rows) hrun
  obtain ⟨hlen, hpf, hiff, hcount⟩ := hinv
  have hfilter : final.phases.filter (fun p => p == .done) = final.phases :=
    List.filter_eq_self.mpr (fun p hp => by rw [hdone p hp]; rfl)
  refine ⟨hpf, ?_, ?_⟩
  · rw [hpf, hcount, hfilter, hlen]
  · intro row hmem
    obtain ⟨i, hi⟩ := List.mem_iff_getElem?.mp hmem
    have hilen : i < final.phases.length := by
      rw [hlen]
      exact (List.getElem?_eq_some.mp hi).1
    have hph : final.phases[i]? = some .done := by
      rw [List.getElem?_eq_getElem hilen, hdone _ (List.getElem_mem hilen)]
    rw [hpf]
    exact (hiff i row hi).mpr hph

/-- Witness for C6 on a two-row batch with an interleaved two-worker
schedule in which the second worker's save lands first. -/
theorem concurrent_run_persists_all_entries_witness :
    (c6Rows.map (·.fingerprint)).Nodup ∧
    (∀ row ∈ c6Rows, getSkipReason row = none) ∧
    execSched c6Rows alwaysOkProvider c6Sched (initExecSt c6Rows) = some c6Final ∧
    (∀ p ∈ c6Final.phases, p = .done) ∧
    (c6Final.persisted = c6Final.file ∧
      c6Final.persisted.length = c6Rows.length ∧
      ∀ row ∈ c6Rows, (objGet c6Final.persisted row.fingerprint).isSome = true) :=
  ⟨by decide, by decide, by rfl, by decide,
   concurrent_run_persists_all_entries c6Rows alwaysOkProvider c6Sched c6Final
     (by decide) (by decide) (fun row _ => ⟨okResult, rfl⟩) (by rfl) (by decide)⟩

/-!  Lemmas for count conservation. -/

theorem updateGroup_occurrences (g : ErrorGroup) (d : RecordKeyData)
    (r : AssignmentErrorRecord) :
    (updateGroup g d r).occurrences = g.occurrences + 1 := by
  simp only [updateGroup]
  split <;> split <;> split <;> rfl

theorem sumOcc_insert (d : RecordKeyData) (r : AssignmentErrorRecord) :
    ∀ groups : List ErrorGroup,
    ((replaceGroup groups d.fingerprint
        (updateGroup (match findGroup groups d.fingerprint with
                      | some g => g
                      | none => freshGroup d) d r)).map (·.occurrences)).sum =
      ((groups.map (·.occurrences)).sum) + 1 := by
  intro groups
  induction groups with
  | nil =>
    simp [findGroup, replaceGroup, updateGroup_occurrences, freshGroup]
  | cons g₀ rest ih =>
    by_cases h : g₀.fingerprint = d.fingerprint
    · rw [show findGroup (g₀ :: rest) d.fingerprint = some g₀ from by
        simp [findGroup, List.find?_cons, h]]
      rw [show replaceGroup (g₀ :: rest) d.fingerprint (updateGroup g₀ d r) =
          updateGroup g₀ d r :: rest from by simp [replaceGroup, h]]
      simp [updateGroup_occurrences]
      omega
    · rw [show findGroup (g₀ :: rest) d.fingerprint = findGroup rest d.fingerprint from by
        simp [findGroup, List.find?_cons, h]]
      have hrep : ∀ g' : ErrorGroup,
          replaceGroup (g₀ :: rest) d.fingerprint g' =
            g₀ :: replaceGroup rest d.fingerprint g' := by
        intro g'; simp [replaceGroup, h]
      rw [hrep]
      simp only [List.map_cons, List.sum_cons]
      rw [ih]
      omega

theorem sumOcc_groupStep (groups : List ErrorGroup) (r : AssignmentErrorRecord) :
    ((groupStep groups r).map (·.occurrences)).sum =
      (groups.map (·.occurrences)).sum + (if (usableOutput r).isSome then 1 else 0) := by
  cases hu : usableOutput r with
  | none => simp [groupStep, hu]
  | some raw =>
    simp only [groupStep, hu, Option.isSome_some, if_true]
    exact sumOcc_insert (recordKeyData raw r) r groups

theorem sumOcc_foldl (records : List AssignmentErrorRecord) :
    ∀ init : List ErrorGroup,
    ((records.foldl groupStep init).map (·.occurrences)).sum =
      (init.map (·.occurrences)).sum +
        (records.filter (fun r => (usableOutput r).isSome)).length := by
  induction records with
  | nil => intro init; simp
  | cons r rest ih =>
    intro init
    rw [List.foldl_cons, ih, sumOcc_groupStep, List.filter_cons]
    cases h : (usableOutput r).isSome <;> simp [h]
    omega

theorem groupStep_unusable (init : List ErrorGroup) (r : AssignmentErrorRecord)
    (h : usableOutput r = none) : groupStep init r = init := by
  simp [groupStep, h]

theorem groupRecords_skips_unusable (records : List AssignmentErrorRecord) :
    ∀ init : List ErrorGroup,
    records.foldl groupStep init =
      (records.filter (fun r => (usableOutput r).isSome)).foldl groupStep init := by
  induction records with
  | nil => intro init; rfl
  | cons r rest ih =>
    intro init
    rw [List.filter_cons]
    cases h : (usableOutput r).isSome with
    | true => simp only [if_true, List.foldl_cons, ih]
    | false =>
      have hnone : usableOutput r = none := by
        rw [← Option.not_isSome_iff_eq_none, h]; simp
      simp only [Bool.false_eq_true, if_false, List.foldl_cons,
        groupStep_unusable init r hnone, ih]

/-- C3: `buildAssignmentLLMRows` is unaffected by the records whose
output text is absent (no candidate column holds a non-empty string) or
whose first populated output value is not a string — exactly the records
the loop's guard skips — and the sum of the `count` fields over the
returned rows equals the number of remaining (non-skipped) records. -/
theorem buildRows_skip_and_count_conservation (records : List AssignmentErrorRecord) :
    buildAssignmentLLMRows records =
      buildAssignmentLLMRows (records.filter (fun r => (usableOutput r).isSome)) ∧
    ((buildAssignmentLLMRows records).map (·.count)).sum =
      (records.filter (fun r => (usableOutput r).isSome)).length := by
  constructor
  · unfold buildAssignmentLLMRows groupRecords
    rw [groupRecords_skips_unusable records []]
  · unfold buildAssignmentLLMRows groupRecords
    have hmap : ∀ groups : List ErrorGroup,
        ((groups.map rowOfGroup).map (·.count)).sum =
          (groups.map (·.occurrences)).sum := by
      intro groups
      rw [List.map_map]
      rfl
    rw [hmap]
    simpa using sumOcc_foldl records []

/-- Counterexample to C7 as stated: the two spec-scenario messages do
not normalize to the same assertion snippet, and two records carrying
them land in two distinct groups (distinct canonical keys). -/
theorem assertion_normalization_differs_on_trailing_zero :
    extractNormalizedAssertion "expected:<2.0> but was:<2.5>" ≠
      extractNormalizedAssertion "expected:<2.00> but was:<2.50>" ∧
    (buildAssignmentLLMRows [snippetRecordA, snippetRecordB]).length = 2 := by
  decide

/-- C7 (amended): the decimal rule strips only all-zero fractions, so the
expected parts `2.0` and `2.00` both normalize to `2`, while the actual
parts `2.5` and `2.50` are preserved verbatim; the two messages therefore
receive different snippets, and records carrying them receive different
discriminants and canonical keys (two groups of one record each). -/
theorem assertion_normalization_trailing_zero_amended :
    extractNormalizedAssertion "expected:<2.0> but was:<2.5>" =
      "expected:<2> but was:<2.5>" ∧
    extractNormalizedAssertion "expected:<2.00> but was:<2.50>" =
      "expected:<2> but was:<2.50>" ∧
    (buildAssignmentLLMRows [snippetRecordA, snippetRecordB]).map
        (fun row => (row.canonicalKey, row.count)) =
      [("instructor_test_failure::expected:<2> but was:<2.5>", 1),
       ("instructor_test_failure::expected:<2> but was:<2.50>", 1)] := by
  decide

/-- Counterexample to C8 as stated: `normalizeAssignmentError` is not
idempotent — on `"expected:<1> but  was:<2>"` (two spaces between `but`
and `was`) a second application differs from the first. -/
theorem normalize_not_idempotent :
    normalizeAssignmentError (normalizeAssignmentError "expected:<1> but  was:<2>") ≠
      normalizeAssignmentError "expected:<1> but  was:<2>" := by
  decide

/-- C8 (amended): `normalizeAssignmentError` is not idempotent: the
final whitespace collapse can enable the expected/actual rule (whose
`but was:` literal requires a single interior space) on a second pass.
On the witness input the first application only collapses whitespace,
the second collapses the now-matching expected/actual pair, and the
result of the second application is a fixpoint. -/
theorem normalize_second_pass_differs_then_fixes :
    normalizeAssignmentError "expected:<1> but  was:<2>" =
      "expected:<1> but was:<2>" ∧
    normalizeAssignmentError "expected:<1> but was:<2>" =
      "expected:<EXPECTED> but was:<ACTUAL>" ∧
    normalizeAssignmentError "expected:<EXPECTED> but was:<ACTUAL>" =
      "expected:<EXPECTED> but was:<ACTUAL>" := by
  decide

/-- Counterexample to C9 as stated: on `"a\n \nb"` (no signal matches any
line) the fallback keeps the whitespace-only middle line — it returns
three lines, one of them blank, rather than the first 8 non-blank lines —
and applies no length truncation. -/
theorem fallback_keeps_blank_line :
    extractAssignmentCore "a\n \nb" = "a\n\nb" ∧
    [] ∈ splitOnChar '\n' (extractAssignmentCore "a\n \nb").data := by
  decide

/-- C9 (amended): when no dependency, mutation-summary, or
assertion-failure signal matches any line of the record,
`extractAssignmentCore` returns the first 8 non-empty lines (a
whitespace-only line counts as non-empty and is kept, becoming blank
after trimming), each trimmed of surrounding whitespace — with no
per-line length truncation — joined by newlines. -/
theorem extractCore_fallback_first_eight_nonempty_lines (s : String)
    (h : ∀ l ∈ splitOnChar '\n' s.data,
        depLineTest l = false ∧ mutationLineTest l = false ∧
          assertionLineTest l = false) :
    extractAssignmentCore s =
      ⟨joinLines ((((splitOnChar '\n' s.data).filter
          (fun l => !l.isEmpty)).take 8).map trimWS)⟩ := by
  have hdep : (splitOnChar '\n' s.data).findIdx? depLineTest = none :=
    List.findIdx?_eq_none_iff.mpr (fun l hl => (h l hl).1)
  have hmut : (splitOnChar '\n' s.data).findIdx? mutationLineTest = none :=
    List.findIdx?_eq_none_iff.mpr (fun l hl => (h l hl).2.1)
  have hassert : (splitOnChar '\n' s.data).findIdx? assertionLineTest = none :=
    List.findIdx?_eq_none_iff.mpr (fun l hl => (h l hl).2.2)
  simp only [extractAssignmentCore]
  cases hsplit : splitOnChar '\n' s.data with
  | nil => rfl
  | cons a as =>
    rw [hsplit] at hdep hmut hassert
    simp only [hdep, hmut, hassert]

/-- Witness for C9's amended theorem at the blank-middle-line input. -/
theorem extractCore_fallback_first_eight_nonempty_lines_witness :
    (∀ l ∈ splitOnChar '\n' ("a\n \nb" : String).data,
        depLineTest l = false ∧ mutationLineTest l = false ∧
          assertionLineTest l = false) ∧
    extractAssignmentCore "a\n \nb" =
      ⟨joinLines ((((splitOnChar '\n' ("a\n \nb" : String).data).filter
          (fun l => !l.isEmpty)).take 8).map trimWS)⟩ :=
  ⟨by decide, extractCore_fallback_first_eight_nonempty_lines "a\n \nb" (by decide)⟩

end Feedbot
